import Mathlib

/-!
A shallow embedding of the lip-sync / facial-animation core of the VR-Human
repository (the phoneme-timeline generator in `server.js` and the morph-target
compositor, lip-sync mode controller and face-tracking merge in
`public/app.js`), together with theorems checking the specification's claims.

Numbers are modelled exactly as rationals (`ℚ`); JavaScript decimal literals
are exact rationals, so arithmetic is faithful.  The JavaScript transcendental
primitives (`x ↦ Math.sin(x·π)`, `Math.sin`, `Math.exp`, `Math.random`) are
passed in as function/value parameters, so every definition stays executable
and theorems quantify over them.
-/

namespace VRHuman

/-! ### Server: the phoneme timeline generator (`server.js`, lines 102–197) -/

/-- Timing constant `BASE_CHAR_DURATION` (server.js line 107). -/
def BASE_CHAR_DURATION : ℚ := 0.06

/-- Timing constant `WORD_GAP` (server.js line 108). -/
def WORD_GAP : ℚ := 0.07

/-- Timing constant `COMMA_PAUSE` (server.js line 109). -/
def COMMA_PAUSE : ℚ := 0.2

/-- Timing constant `PERIOD_PAUSE` (server.js line 110). -/
def PERIOD_PAUSE : ℚ := 0.35

/-- Timing constant `EXCLAIM_PAUSE` (server.js line 111). -/
def EXCLAIM_PAUSE : ℚ := 0.3

/-- Timing constant `QUESTION_PAUSE` (server.js line 112). -/
def QUESTION_PAUSE : ℚ := 0.3

/-- The apostrophe character (kept by the word filter `[^a-z'-]`). -/
def apostrophe : Char := Char.ofNat 39

/-- The single-character entries of `CHAR_TO_VISEME` (server.js lines 77–92). -/
def charViseme (c : Char) : Option String :=
  match c with
  | 'a' | 'á' => some "viseme_aa"
  | 'e' | 'é' => some "viseme_E"
  | 'i' | 'í' => some "viseme_I"
  | 'o' | 'ó' => some "viseme_O"
  | 'u' | 'ú' => some "viseme_U"
  | 'b' | 'p' | 'm' => some "viseme_PP"
  | 'f' | 'v' => some "viseme_FF"
  | 't' | 'd' | 'l' => some "viseme_DD"
  | 'n' => some "viseme_nn"
  | 'k' | 'g' | 'q' | 'c' => some "viseme_kk"
  | 's' | 'z' | 'x' => some "viseme_SS"
  | 'r' => some "viseme_RR"
  | 'j' | 'y' | 'h' => some "viseme_CH"
  | 'w' => some "viseme_U"
  | _ => none

/-- The digraph entries of `CHAR_TO_VISEME` (server.js lines 74–76), grouped by
first character: `th ch sh ng wh ph ck qu`. -/
def digraphViseme (c1 c2 : Char) : Option String :=
  if c1 = 't' then (if c2 = 'h' then some "viseme_TH" else none)
  else if c1 = 'c' then
    (if c2 = 'h' then some "viseme_CH" else if c2 = 'k' then some "viseme_kk" else none)
  else if c1 = 's' then (if c2 = 'h' then some "viseme_CH" else none)
  else if c1 = 'n' then (if c2 = 'g' then some "viseme_nn" else none)
  else if c1 = 'w' then (if c2 = 'h' then some "viseme_U" else none)
  else if c1 = 'p' then (if c2 = 'h' then some "viseme_FF" else none)
  else if c1 = 'q' then (if c2 = 'u' then some "viseme_kk" else none)
  else none

/-- `'aeiou'.includes(char)` (server.js line 147). -/
def isVowel (c : Char) : Bool :=
  c = 'a' || c = 'e' || c = 'i' || c = 'o' || c = 'u'

/-- Characters kept by the cleaning regex `[^a-z\s.,!?;:'-]` (server.js
line 103); `\s` is modelled by the six ASCII whitespace characters. -/
def isJsSpace (c : Char) : Bool :=
  c = ' ' || c = '\t' || c = '\n' || c = '\r' || c = '\x0b' || c = '\x0c'

/-- Membership in the permitted alphabet `[a-z\s.,!?;:'-]` of the cleaning
regex (server.js line 103). -/
def isAllowedChar (c : Char) : Bool :=
  ('a' ≤ c && c ≤ 'z') || isJsSpace c || c = '.' || c = ',' || c = '!' ||
    c = '?' || c = ';' || c = ':' || c = apostrophe || c = '-'

/-- Characters kept by the word filter `rawWord.replace(/[^a-z'-]/g, '')`
(server.js line 118). -/
def isWordChar (c : Char) : Bool :=
  ('a' ≤ c && c ≤ 'z') || c = apostrophe || c = '-'

/-- The sentence-punctuation class `[.,!?;:]` used by the trailing-punctuation
match (server.js line 117). -/
def isPunctChar (c : Char) : Bool :=
  c = '.' || c = ',' || c = '!' || c = '?' || c = ';' || c = ':'

/-- `rawWord.match(/([.,!?;:]+)$/)` — the maximal trailing run of sentence
punctuation (server.js line 117). -/
def trailingPunct (w : List Char) : List Char :=
  (w.reverse.takeWhile isPunctChar).reverse

/-- The punctuation-to-pause classification chain (server.js lines 123–126 and
173–176): period 0.35, exclamation 0.3, question 0.3, comma 0.2, else the word
gap 0.07. -/
def pauseOf (punct : List Char) : ℚ :=
  if punct.contains '.' then PERIOD_PAUSE
  else if punct.contains '!' then EXCLAIM_PAUSE
  else if punct.contains '?' then QUESTION_PAUSE
  else if punct.contains ',' then COMMA_PAUSE
  else WORD_GAP

/-- One timed viseme event `{viseme, time, duration, intensity}` as pushed by
`generatePhonemeData` (server.js lines 127–132, 159–164, 177–191). -/
structure VisemeEvent where
  viseme : String
  time : ℚ
  duration : ℚ
  intensity : ℚ
deriving DecidableEq, Repr

/-- The value `{ phonemes, totalDuration }` returned by `generatePhonemeData`
(server.js line 196). -/
structure PhonemeData where
  phonemes : List VisemeEvent
  totalDuration : ℚ
deriving DecidableEq, Repr

/-- `text.split(/\s+/)` (server.js line 103): pieces between maximal runs of
whitespace, keeping the empty piece produced by a leading or trailing run,
exactly as in JavaScript (`""` splits to `[""]`).  The `skipping` flag is true
while inside a whitespace run whose piece boundary was already emitted. -/
def splitWsGo : List Char → List Char → Bool → List (List Char)
  | [], cur, _ => [cur.reverse]
  | c :: rest, cur, skipping =>
    if isJsSpace c then
      if skipping then splitWsGo rest cur true
      else cur.reverse :: splitWsGo rest [] true
    else splitWsGo rest (c :: cur) false

/-- See `splitWsGo`. -/
def splitWs (s : List Char) : List (List Char) :=
  splitWsGo s [] false

/-- The inner character loop of `generatePhonemeData` (server.js lines
141–169), threading the running clock `currentTime`.  At each position the
two-character digraph is looked up first (only when a next character exists);
on a digraph match the next character is skipped.  Each iteration advances the
clock by `BASE_CHAR_DURATION` regardless of the emitted event's duration. -/
def wordLoop (emph : ℚ) : List Char → ℚ → List VisemeEvent × ℚ
  | [], t => ([], t)
  | [c], t =>
    match charViseme c with
    | none => ([], t + BASE_CHAR_DURATION)
    | some v =>
      let isV := isVowel c
      let d := if isV then BASE_CHAR_DURATION * 1.2 else BASE_CHAR_DURATION * 0.9
      -- no next character, so the stressed-syllable multiplier cannot apply
      let inten := min 1 ((if isV then (0.75 : ℚ) else 0.5) * emph)
      ([{ viseme := v, time := t, duration := d, intensity := inten }],
        t + BASE_CHAR_DURATION)
  | c :: c2 :: rest, t =>
    match digraphViseme c c2 with
    | some v =>
      let isV := isVowel c
      let d0 := if isV then BASE_CHAR_DURATION * 1.2 else BASE_CHAR_DURATION * 0.9
      let d := if isV && !isVowel c2 then d0 * 1.15 else d0
      let inten := min 1 ((if isV then (0.75 : ℚ) else 0.5) * emph)
      let r := wordLoop emph rest (t + BASE_CHAR_DURATION)
      ({ viseme := v, time := t, duration := d, intensity := inten } :: r.1, r.2)
    | none =>
      match charViseme c with
      | none => wordLoop emph (c2 :: rest) (t + BASE_CHAR_DURATION)
      | some v =>
        let isV := isVowel c
        let d0 := if isV then BASE_CHAR_DURATION * 1.2 else BASE_CHAR_DURATION * 0.9
        let d := if isV && !isVowel c2 then d0 * 1.15 else d0
        let inten := min 1 ((if isV then (0.75 : ℚ) else 0.5) * emph)
        let r := wordLoop emph (c2 :: rest) (t + BASE_CHAR_DURATION)
        ({ viseme := v, time := t, duration := d, intensity := inten } :: r.1, r.2)

/-- The word loop of `generatePhonemeData` (server.js lines 114–194): for each
whitespace-split entry, strip the word to `[a-z'-]`, classify trailing
punctuation, process the characters (emphasis 1.1 for the entry at index 0),
and append a silence event for the punctuation pause or word gap. -/
def genWords : List (List Char) → ℕ → ℚ → List VisemeEvent × ℚ
  | [], _, t => ([], t)
  | rawWord :: rest, wi, t =>
    let punct := trailingPunct rawWord
    let word := rawWord.filter isWordChar
    if word = [] then
      if punct = [] then genWords rest (wi + 1) t
      else
        let p := pauseOf punct
        let r := genWords rest (wi + 1) (t + p)
        ({ viseme := "viseme_sil", time := t, duration := p, intensity := 0 } :: r.1,
          r.2)
    else
      let wordEmphasis : ℚ := if wi = 0 then 1.1 else 1.0
      let wres := wordLoop wordEmphasis word t
      let p := if punct = [] then WORD_GAP else pauseOf punct
      let r := genWords rest (wi + 1) (wres.2 + p)
      (wres.1 ++
        { viseme := "viseme_sil", time := wres.2, duration := p, intensity := 0 } ::
          r.1,
        r.2)

/-- `generatePhonemeData(text)` (server.js lines 102–197): lower-case the text,
strip characters outside the permitted alphabet, split on whitespace, and run
the word loop from clock 0. -/
def generatePhonemeData (text : String) : PhonemeData :=
  let cleaned := (text.data.map Char.toLower).filter isAllowedChar
  let r := genWords (splitWs cleaned) 0 0
  { phonemes := r.1, totalDuration := r.2 }

/-! ### Client: morph-target accumulator (`public/app.js`, lines 417–469) -/

/-- The per-frame morph accumulator `morphTargetTarget`, as a total map with
default 0 (an absent JavaScript key reads as `|| 0`). -/
def MorphMap : Type := String → ℚ

/-- The loaded rig: the set of morph channel names in `morphDict` plus the
`hasOculusVisemes` / `hasARKitMorphs` flags probed at load time. -/
structure Rig where
  dict : List String
  hasOculus : Bool
  hasARKit : Bool

/-- `setMorph(name, value)` (app.js lines 420–423): ignore names absent from
`morphDict`, otherwise merge with per-channel `Math.max`. -/
def setMorph (rig : Rig) (name : String) (value : ℚ) (m : MorphMap) : MorphMap :=
  if rig.dict.contains name then
    fun k => if k = name then max (m name) value else m k
  else m

/-- `resetMorphTargets()` (app.js lines 425–427): every channel back to 0. -/
def resetMorphTargets : MorphMap := fun _ => 0

/-- The `VISEME_TO_ARKIT` dictionary (app.js lines 399–415). -/
def visemeToArkit (vis : String) : Option (List (String × ℚ)) :=
  match vis with
  | "viseme_sil" => some []
  | "viseme_aa" => some [("jawOpen", 0.75), ("mouthFunnel", 0.2)]
  | "viseme_E" => some [("jawOpen", 0.22), ("mouthSmileLeft", 0.35),
      ("mouthSmileRight", 0.35), ("mouthStretchLeft", 0.25), ("mouthStretchRight", 0.25)]
  | "viseme_I" => some [("jawOpen", 0.1), ("mouthSmileLeft", 0.5), ("mouthSmileRight", 0.5)]
  | "viseme_O" => some [("jawOpen", 0.55), ("mouthFunnel", 0.65), ("mouthPucker", 0.3)]
  | "viseme_U" => some [("jawOpen", 0.12), ("mouthPucker", 0.75), ("mouthFunnel", 0.45)]
  | "viseme_PP" => some [("mouthClose", 0.85), ("mouthPressLeft", 0.55), ("mouthPressRight", 0.55)]
  | "viseme_FF" => some [("jawOpen", 0.06), ("mouthRollLower", 0.35),
      ("mouthUpperUpLeft", 0.2), ("mouthUpperUpRight", 0.2)]
  | "viseme_TH" => some [("jawOpen", 0.15), ("tongueOut", 0.55),
      ("mouthLowerDownLeft", 0.08), ("mouthLowerDownRight", 0.08)]
  | "viseme_DD" => some [("jawOpen", 0.18), ("tongueOut", 0.12), ("mouthClose", 0.08)]
  | "viseme_kk" => some [("jawOpen", 0.28), ("mouthFunnel", 0.08), ("mouthShrugUpper", 0.08)]
  | "viseme_CH" => some [("jawOpen", 0.12), ("mouthPucker", 0.45), ("mouthFunnel", 0.2)]
  | "viseme_SS" => some [("jawOpen", 0.06), ("mouthStretchLeft", 0.3),
      ("mouthStretchRight", 0.3), ("mouthClose", 0.12)]
  | "viseme_nn" => some [("jawOpen", 0.05), ("mouthClose", 0.12), ("tongueOut", 0.06)]
  | "viseme_RR" => some [("jawOpen", 0.18), ("mouthPucker", 0.22),
      ("mouthFunnel", 0.12), ("mouthRollLower", 0.1)]
  | _ => none

/-- `applyViseme(visemeName, intensity)` (app.js lines 429–444): direct Oculus
viseme channel when present, otherwise expansion through ARKit blend shapes. -/
def applyViseme (rig : Rig) (vis : String) (intensity : ℚ) (m : MorphMap) : MorphMap :=
  if rig.hasOculus && rig.dict.contains vis then
    setMorph rig vis intensity m
  else if rig.hasARKit then
    match visemeToArkit vis with
    | some pairs => pairs.foldl (fun acc p => setMorph rig p.1 (p.2 * intensity) acc) m
    | none => m
  else m

/-! ### Client: word-to-viseme expander (`public/app.js`, lines 701–731) -/

/-- One relative-time viseme entry of `wordToVisemes` output. -/
structure RelViseme where
  viseme : String
  duration : ℚ
  intensity : ℚ
deriving DecidableEq, Repr

/-- The single-character entries of the client `CHAR_VISEME` table (app.js
lines 704–710, no accented vowels and no `q`/`x` entries). -/
def clientCharViseme (c : Char) : Option String :=
  match c with
  | 'a' => some "viseme_aa"
  | 'e' => some "viseme_E"
  | 'i' => some "viseme_I"
  | 'o' => some "viseme_O"
  | 'u' => some "viseme_U"
  | 'b' | 'p' | 'm' => some "viseme_PP"
  | 'f' | 'v' => some "viseme_FF"
  | 't' | 'd' | 'l' => some "viseme_DD"
  | 'n' => some "viseme_nn"
  | 'k' | 'g' | 'c' => some "viseme_kk"
  | 's' | 'z' => some "viseme_SS"
  | 'r' => some "viseme_RR"
  | 'j' | 'y' | 'h' => some "viseme_CH"
  | 'w' => some "viseme_U"
  | _ => none

/-- The digraph entries of the client `CHAR_VISEME` table (app.js lines
702–703): `th ch sh ng wh ph`. -/
def clientDigraphViseme (c1 c2 : Char) : Option String :=
  if c1 = 't' then (if c2 = 'h' then some "viseme_TH" else none)
  else if c1 = 'c' then (if c2 = 'h' then some "viseme_CH" else none)
  else if c1 = 's' then (if c2 = 'h' then some "viseme_CH" else none)
  else if c1 = 'n' then (if c2 = 'g' then some "viseme_nn" else none)
  else if c1 = 'w' then (if c2 = 'h' then some "viseme_U" else none)
  else if c1 = 'p' then (if c2 = 'h' then some "viseme_FF" else none)
  else none

/-- The client per-viseme base duration `BASE = 0.075` (app.js line 716). -/
def CLIENT_BASE : ℚ := 0.075

/-- The character loop of `wordToVisemes` (app.js lines 717–729). -/
def wtvLoop : List Char → List RelViseme
  | [] => []
  | [c] =>
    match clientCharViseme c with
    | some v =>
      [{ viseme := v,
         duration := if isVowel c then CLIENT_BASE * 1.5 else CLIENT_BASE * 0.9,
         intensity := if isVowel c then (1 : ℚ) else 0.75 }]
    | none => []
  | c :: c2 :: rest =>
    match clientDigraphViseme c c2 with
    | some v =>
      { viseme := v,
        duration := if isVowel c then CLIENT_BASE * 1.5 else CLIENT_BASE * 0.9,
        intensity := if isVowel c then (1 : ℚ) else 0.75 } :: wtvLoop rest
    | none =>
      match clientCharViseme c with
      | some v =>
        { viseme := v,
          duration := if isVowel c then CLIENT_BASE * 1.5 else CLIENT_BASE * 0.9,
          intensity := if isVowel c then (1 : ℚ) else 0.75 } :: wtvLoop (c2 :: rest)
      | none => wtvLoop (c2 :: rest)

/-- `wordToVisemes(word)` (app.js lines 713–731): lower-case, keep `[a-z]`,
then run the character loop. -/
def wordToVisemes (word : List Char) : List RelViseme :=
  wtvLoop ((word.map Char.toLower).filter (fun c => 'a' ≤ c && c ≤ 'z'))

/-! ### Client: lip-sync mode controller (`public/app.js`, lines 697–847) -/

/-- The controller state: the globals `isSpeaking`, `lipSyncMode`,
`currentPhonemes`, `lipSyncStartTime`, `wordVisemeQueue`, `wordVisemeStart`
and `talkGesturePhase` of app.js SECTION 6. -/
structure LipState where
  isSpeaking : Bool
  lipSyncMode : String
  currentPhonemes : Option PhonemeData
  lipSyncStartTime : ℚ
  wordVisemeQueue : List RelViseme
  wordVisemeStart : ℚ
  talkGesturePhase : ℚ
deriving DecidableEq, Repr

/-- `stopLipSync()` (app.js lines 831–838).  The DOM call `hideSpeakingUI` and
the vestigial `cancelAnimationFrame` (the v7 frame loop never sets
`lipSyncAnimFrame`) have no state modelled here; `currentPhonemes` is not
cleared by the source. -/
def stopLipSync (s : LipState) : LipState :=
  { s with isSpeaking := false, lipSyncMode := "none", talkGesturePhase := 0,
           wordVisemeQueue := [] }

/-- `startLipSyncFromTimeline(phonemeData)` (app.js lines 812–820). -/
def startLipSyncFromTimeline (pd : PhonemeData) (now : ℚ) (s : LipState) : LipState :=
  let s1 := stopLipSync s
  { s1 with isSpeaking := true, currentPhonemes := some pd,
            lipSyncMode := "timeline", lipSyncStartTime := now,
            talkGesturePhase := 0 }

/-- `startRealtimeLipSync()` (app.js lines 822–829). -/
def startRealtimeLipSync (s : LipState) : LipState :=
  let s1 := stopLipSync s
  { s1 with isSpeaking := true, lipSyncMode := "realtime",
            talkGesturePhase := 0, wordVisemeQueue := [] }

/-- `startLipSyncFallback()` (app.js lines 840–847). -/
def startLipSyncFallback (now : ℚ) (s : LipState) : LipState :=
  let s1 := stopLipSync s
  { s1 with isSpeaking := true, lipSyncMode := "fallback",
            lipSyncStartTime := now, talkGesturePhase := 0 }

/-- The scan loop of the realtime branch of `tickLipSync` (app.js lines
748–766): find the queue entry whose window contains `elapsed`, apply it with
the `sin(progress·π)` envelope (the parameter `sinPi` is `x ↦ Math.sin(x·π)`),
pre-blend the next entry during the last 40% of progress, and break.  Returns
the accumulator and the running duration sum `t` at which the loop stopped. -/
def rtScan (sinPi : ℚ → ℚ) (rig : Rig) (elapsed : ℚ) :
    List RelViseme → ℚ → MorphMap → MorphMap × ℚ
  | [], t, m => (m, t)
  | v :: rest, t, m =>
    if t ≤ elapsed ∧ elapsed < t + v.duration then
      let progress := (elapsed - t) / v.duration
      let envelope := sinPi progress
      let m1 := applyViseme rig v.viseme (v.intensity * (0.5 + envelope * 0.5)) m
      let m2 :=
        match rest with
        | next :: _ =>
          if progress > 0.6 then
            applyViseme rig next.viseme (next.intensity * ((progress - 0.6) / 0.4) * 0.4) m1
          else m1
        | [] => m1
      (m2, t)
    else rtScan sinPi rig elapsed rest (t + v.duration) m

/-- The timeline loop of `tickLipSync` (app.js lines 780–797): every phoneme
whose window contains `elapsed` is applied (no break), with a `|| 1.0` default
on the active intensity and `|| 0.5` on the co-articulated next intensity. -/
def timelineApply (sinPi : ℚ → ℚ) (rig : Rig) (elapsed : ℚ) :
    List VisemeEvent → MorphMap → MorphMap
  | [], m => m
  | ph :: rest, m =>
    let m1 :=
      if ph.time ≤ elapsed ∧ elapsed < ph.time + ph.duration then
        let progress := (elapsed - ph.time) / ph.duration
        let envelope := sinPi progress
        applyViseme rig ph.viseme
          ((if ph.intensity = 0 then 1 else ph.intensity) * (0.5 + envelope * 0.5)) m
      else m
    let m2 :=
      if ph.time + ph.duration * 0.7 ≤ elapsed ∧ elapsed < ph.time + ph.duration then
        match rest with
        | next :: _ =>
          let blend := (elapsed - (ph.time + ph.duration * 0.7)) / (ph.duration * 0.3)
          applyViseme rig next.viseme
            ((if next.intensity = 0 then 0.5 else next.intensity) * blend * 0.35) m1
        | [] => m1
      else m1
    timelineApply sinPi rig elapsed rest m2

/-- The cyclic viseme list of the fallback branch (app.js line 805). -/
def fallbackVisemes : List String :=
  ["viseme_aa", "viseme_E", "viseme_O", "viseme_I", "viseme_U"]

/-- `tickLipSync()` (app.js lines 741–810), called once per rendered frame
with the current clock `now` (milliseconds, `performance.now()`).  In timeline
mode a truthy `currentPhonemes?.totalDuration` with
`elapsed > totalDuration + 0.15` auto-stops the controller.  A negative
fallback cycle index reads `undefined` from the viseme array in JavaScript;
that is modelled by the unmapped name `"undefined"`, which `applyViseme`
ignores. -/
def tickLipSync (sinPi : ℚ → ℚ) (now : ℚ) (rig : Rig) (s : LipState)
    (m : MorphMap) : LipState × MorphMap :=
  if !s.isSpeaking then (s, m)
  else if s.lipSyncMode = "realtime" then
    if s.wordVisemeQueue = [] then (s, m)
    else
      let elapsed := (now - s.wordVisemeStart) / 1000
      let r := rtScan sinPi rig elapsed s.wordVisemeQueue 0 m
      if elapsed > r.2 then ({ s with wordVisemeQueue := [] }, r.1) else (s, r.1)
  else if s.lipSyncMode = "timeline" then
    let elapsed := (now - s.lipSyncStartTime) / 1000
    match s.currentPhonemes with
    | none => (s, m)
    | some pd =>
      if pd.totalDuration ≠ 0 ∧ elapsed > pd.totalDuration + 0.15 then
        (stopLipSync s, m)
      else (s, timelineApply sinPi rig elapsed pd.phonemes m)
  else if s.lipSyncMode = "fallback" then
    let elapsed := (now - s.lipSyncStartTime) / 1000
    let cycle := elapsed * 5.0
    let n : ℤ := Int.floor cycle
    let progress := cycle - n
    let vis := if 0 ≤ n then fallbackVisemes.getD (n.toNat % 5) "undefined"
               else "undefined"
    let m1 := applyViseme rig vis (sinPi progress * 0.9) m
    let m2 := if rig.hasARKit then setMorph rig "jawOpen" (sinPi progress * 0.5) m1
              else m1
    (s, m2)
  else (s, m)

/-! ### Client: emotion morphs (`public/app.js`, lines 589–614) -/

/-- In-place association-list update, appending a missing key at the end
(JavaScript object key insertion order). -/
def curSet : List (String × ℚ) → String → ℚ → List (String × ℚ)
  | [], k, v => [(k, v)]
  | (k0, v0) :: rest, k, v =>
    if k0 = k then (k, v) :: rest else (k0, v0) :: curSet rest k v

/-- First loop of `updateEmotionMorphs` (app.js lines 601–605): interpolate
`currentEmotion[name]` toward each targeted value and merge it into the
accumulator.  The emotion maps are association lists in insertion order. -/
def emoPhase1 (rig : Rig) (rate : ℚ) :
    List (String × ℚ) → List (String × ℚ) → MorphMap →
      List (String × ℚ) × MorphMap
  | [], cur, m => (cur, m)
  | (name, tv) :: restT, cur, m =>
    let c0 := (cur.lookup name).getD 0
    let c1 := c0 + (tv - c0) * rate
    emoPhase1 rig rate restT (curSet cur name c1) (setMorph rig name c1 m)

/-- Second loop of `updateEmotionMorphs` (app.js lines 607–613): channels no
longer targeted decay by `(1 - rate)`, are deleted below 0.005, and otherwise
still merge into the accumulator. -/
def emoPhase2 (rig : Rig) (rate : ℚ) (target : List (String × ℚ)) :
    List (String × ℚ) → MorphMap → List (String × ℚ) × MorphMap
  | [], m => ([], m)
  | (name, v) :: rest, m =>
    if (target.lookup name).isSome then
      let r := emoPhase2 rig rate target rest m
      ((name, v) :: r.1, r.2)
    else
      let v1 := v * (1 - rate)
      if v1 < 0.005 then emoPhase2 rig rate target rest m
      else
        let r := emoPhase2 rig rate target rest (setMorph rig name v1 m)
        ((name, v1) :: r.1, r.2)

/-- `updateEmotionMorphs(delta)` (app.js lines 599–614); the parameter `expQ`
stands for `Math.exp`. -/
def updateEmotionMorphs (expQ : ℚ → ℚ) (delta : ℚ)
    (cur target : List (String × ℚ)) (rig : Rig) (m : MorphMap) :
    List (String × ℚ) × MorphMap :=
  let rate := 1 - expQ (-(5 : ℚ) * delta)
  let r1 := emoPhase1 rig rate target cur m
  emoPhase2 rig rate target r1.1 r1.2

/-- `microExpressions(time)` (app.js lines 616–628); the parameter `sinQ`
stands for `Math.sin`. -/
def microExpressions (sinQ : ℚ → ℚ) (time : ℚ) (rig : Rig) (m : MorphMap) :
    MorphMap :=
  let smile := (sinQ (time * 0.35) + 1) * 0.02
  let m1 := setMorph rig "mouthSmileRight" smile (setMorph rig "mouthSmileLeft" smile m)
  let browShift := (sinQ (time * 0.28 + 1.5) + 1) * 0.015
  let m2 := setMorph rig "browInnerUp" browShift m1
  let cheek := (sinQ (time * 0.8) + 1) * 0.005
  setMorph rig "cheekPuff" cheek m2

/-! ### Client: eye gaze and blink (`public/app.js`, lines 474–560) -/

/-- Gaze state: the globals of app.js SECTION 4 used by `updateEyeGaze`. -/
structure GazeState where
  mouseX : ℚ
  mouseY : ℚ
  smoothGazeX : ℚ
  smoothGazeY : ℚ
  saccadeTimer : ℚ
  saccadeX : ℚ
  saccadeY : ℚ
  faceTrackGazeX : Option ℚ
  faceTrackGazeY : Option ℚ
deriving DecidableEq, Repr

/-- `updateEyeGaze(delta)` (app.js lines 489–535).  The parameters `r1 r2 r3`
stand for the `Math.random()` draws of a saccade re-roll; the head/neck bone
rotations touch no morph channel and are omitted. -/
def updateEyeGaze (r1 r2 r3 : ℚ) (delta : ℚ) (g : GazeState) (rig : Rig)
    (m : MorphMap) : GazeState × MorphMap :=
  let targetX := g.faceTrackGazeX.getD g.mouseX
  let targetY := g.faceTrackGazeY.getD g.mouseY
  let sx := g.smoothGazeX + (targetX - g.smoothGazeX) * 0.08
  let sy := g.smoothGazeY + (targetY - g.smoothGazeY) * 0.08
  let st0 := g.saccadeTimer - delta
  let roll := decide (st0 ≤ 0)
  let sacX := if roll then (r1 - 0.5) * 0.06 else g.saccadeX
  let sacY := if roll then (r2 - 0.5) * 0.035 else g.saccadeY
  let st1 := if roll then 0.8 + r3 * 2.5 else st0
  let gx := sx + sacX
  let gy := sy + sacY
  let m1 :=
    if rig.hasARKit then
      let lookRight := max 0 gx
      let lookLeft := max 0 (-gx)
      let lookUp := max 0 gy
      let lookDown := max 0 (-gy)
      setMorph rig "eyeLookDownRight" (lookDown * 0.5)
        (setMorph rig "eyeLookDownLeft" (lookDown * 0.5)
          (setMorph rig "eyeLookUpRight" (lookUp * 0.5)
            (setMorph rig "eyeLookUpLeft" (lookUp * 0.5)
              (setMorph rig "eyeLookInRight" (lookLeft * 0.7)
                (setMorph rig "eyeLookOutRight" (lookRight * 0.7)
                  (setMorph rig "eyeLookInLeft" (lookRight * 0.7)
                    (setMorph rig "eyeLookOutLeft" (lookLeft * 0.7) m)))))))
    else m
  ({ g with smoothGazeX := sx, smoothGazeY := sy, saccadeTimer := st1,
            saccadeX := sacX, saccadeY := sacY }, m1)

/-- Blink state: the globals of app.js line 537 plus `faceTrackBlink`.  The
`setTimeout` of 110–150 ms that clears `blinkTarget` is modelled by the
`pendingBlinkClear` flag (its later firing is outside the per-frame tick). -/
structure BlinkState where
  lastBlinkTime : ℚ
  nextBlinkDelay : ℚ
  blinkTarget : ℚ
  blinkAmount : ℚ
  faceTrackBlink : Option ℚ
  pendingBlinkClear : Bool
deriving DecidableEq, Repr

/-- `updateBlink(time, delta)` (app.js lines 539–560).  With face tracking
active, `blinkAmount` lerps toward the tracked value by factor 0.3; otherwise
the natural cycle runs (`r` stands for the `Math.random()` delay draw and
`expQ` for `Math.exp`).  The result always merges into the accumulator. -/
def updateBlink (expQ : ℚ → ℚ) (r : ℚ) (time delta : ℚ) (b : BlinkState)
    (rig : Rig) (m : MorphMap) : BlinkState × MorphMap :=
  let b1 :=
    match b.faceTrackBlink with
    | some ft => { b with blinkAmount := b.blinkAmount + (ft - b.blinkAmount) * 0.3 }
    | none =>
      let b0 :=
        if time - b.lastBlinkTime > b.nextBlinkDelay then
          { b with blinkTarget := 1, lastBlinkTime := time,
                   nextBlinkDelay := 2.5 + r * 5, pendingBlinkClear := true }
        else b
      { b0 with blinkAmount :=
          b0.blinkAmount + (b0.blinkTarget - b0.blinkAmount) * (1 - expQ (-(24 : ℚ) * delta)) }
  let m1 := setMorph rig "eyeBlinkRight" b1.blinkAmount
    (setMorph rig "eyeBlinkLeft" b1.blinkAmount m)
  let m2 :=
    if b1.blinkAmount > 0.5 then
      setMorph rig "eyeSquintRight" (b1.blinkAmount * 0.3)
        (setMorph rig "eyeSquintLeft" (b1.blinkAmount * 0.3) m1)
    else m1
  (b1, m2)

/-! ### Client: the per-frame compositor (`public/app.js`, lines 883–932) -/

/-- The state read and written by the morph-accumulating part of one `animate`
frame (app.js lines 888–912). -/
structure FrameState where
  lip : LipState
  emoCur : List (String × ℚ)
  emoTarget : List (String × ℚ)
  gaze : GazeState
  blink : BlinkState
  elapsedTime : ℚ
  nowMs : ℚ

/-- The morph-accumulating pipeline of one `animate` frame (app.js lines
888–912, with `avatarLoaded`): reset, lip-sync tick, emotion morphs, idle
micro-expressions only when not speaking, eye gaze, blink.  The bone-only
steps (`animateIdleBody`, `animateTalkingBody`) and the final smoothing
actuator `updateMorphTargets` touch no pre-smoothing target and are outside
this function. -/
def animateFrame (sinPi sinQ expQ : ℚ → ℚ) (r1 r2 r3 rB : ℚ) (rig : Rig)
    (delta : ℚ) (fs : FrameState) : FrameState × MorphMap :=
  let t0 := tickLipSync sinPi fs.nowMs rig fs.lip resetMorphTargets
  let e0 := updateEmotionMorphs expQ delta fs.emoCur fs.emoTarget rig t0.2
  let m3 := if t0.1.isSpeaking then e0.2
            else microExpressions sinQ fs.elapsedTime rig e0.2
  let g0 := updateEyeGaze r1 r2 r3 delta fs.gaze rig m3
  let b0 := updateBlink expQ rB fs.elapsedTime delta fs.blink rig g0.2
  ({ fs with lip := t0.1, emoCur := e0.1, gaze := g0.1, blink := b0.1 }, b0.2)

/-- The same frame pipeline with the micro-expression step removed, used to
state that micro-expressions contribute nothing on speaking frames. -/
def animateFrameNoMicro (sinPi sinQ expQ : ℚ → ℚ) (r1 r2 r3 rB : ℚ) (rig : Rig)
    (delta : ℚ) (fs : FrameState) : FrameState × MorphMap :=
  let t0 := tickLipSync sinPi fs.nowMs rig fs.lip resetMorphTargets
  let e0 := updateEmotionMorphs expQ delta fs.emoCur fs.emoTarget rig t0.2
  let m3 := e0.2
  let g0 := updateEyeGaze r1 r2 r3 delta fs.gaze rig m3
  let b0 := updateBlink expQ rB fs.elapsedTime delta fs.blink rig g0.2
  ({ fs with lip := t0.1, emoCur := e0.1, gaze := g0.1, blink := b0.1 }, b0.2)

/-! ### Client: face-tracking results (`public/app.js`, lines 1260–1297) -/

/-- The face-tracking globals written by `onFaceResults`. -/
structure FTVals where
  gazeX : Option ℚ
  gazeY : Option ℚ
  blink : Option ℚ
  smile : Option ℚ
  browRaise : Option ℚ
  mouthOpen : Option ℚ
deriving DecidableEq, Repr

/-- `THREE.MathUtils.clamp(x, lo, hi)`. -/
def clampQ (x lo hi : ℚ) : ℚ := max lo (min hi x)

/-- `onFaceResults(results)` (app.js lines 1260–1297): landmarks are a map
from index to `(x, y)`; with no detected face every tracking value becomes
`null` and the accumulator is untouched.  All three `setMorph` groups (mouth
open, smile, brow) are guarded by `!isSpeaking`. -/
def onFaceResults (results : Option (ℕ → ℚ × ℚ)) (speaking : Bool) (rig : Rig)
    (m : MorphMap) : FTVals × MorphMap :=
  match results with
  | none => ({ gazeX := none, gazeY := none, blink := none, smile := none,
               browRaise := none, mouthOpen := none }, m)
  | some lm =>
    let lEyeOpen := abs ((lm 159).2 - (lm 145).2)
    let rEyeOpen := abs ((lm 386).2 - (lm 374).2)
    let blink := clampQ (1 - ((lEyeOpen + rEyeOpen) / 2 - 0.008) / 0.035) 0 1
    let gazeX := ((lm 4).1 - 0.5) * (-2.5)
    let gazeY := ((lm 4).2 - 0.5) * (-2)
    let mouthOpenAmt := abs ((lm 13).2 - (lm 14).2)
    let mouthOpen := clampQ ((mouthOpenAmt - 0.015) / 0.06) 0 1
    let m1 :=
      if mouthOpen > 0.08 && !speaking then
        (if rig.hasOculus then setMorph rig "viseme_aa" (mouthOpen * 0.7) m
         else if rig.hasARKit then setMorph rig "jawOpen" (mouthOpen * 0.7) m
         else m)
      else m
    let mouthWidth := abs ((lm 291).1 - (lm 61).1)
    let smile := clampQ ((mouthWidth - 0.14) / 0.1) 0 1
    let m2 :=
      if !speaking then
        setMorph rig "mouthSmileRight" (smile * 0.6)
          (setMorph rig "mouthSmileLeft" (smile * 0.6) m1)
      else m1
    let browAvgY := ((lm 107).2 + (lm 336).2 + (lm 70).2 + (lm 300).2) / 4
    let brow := clampQ ((0.28 - browAvgY) / 0.06) (-0.5) 1
    let m3 :=
      if !speaking then
        setMorph rig "browDownRight" (max 0 (-brow) * 0.4)
          (setMorph rig "browDownLeft" (max 0 (-brow) * 0.4)
            (setMorph rig "browInnerUp" (max 0 brow * 0.5) m2))
      else m2
    ({ gazeX := some gazeX, gazeY := some gazeY, blink := some blink,
       smile := some smile, browRaise := some brow, mouthOpen := some mouthOpen },
      m3)

/-! ### Client: the `speak` utterance machine (`public/app.js`, lines 977–1043) -/

/-- The grace period (milliseconds) of the `setTimeout` in `utt.onstart`
(app.js line 1035). -/
def graceDelayMs : ℚ := 400

/-- The events delivered to one utterance of `speak`: the `onstart` callback,
a `'word'` `onboundary` callback carrying the word text, the firing of the
grace `setTimeout`, and a `stopLipSync()` call (from `onend`, `onerror` or any
external cancellation). -/
inductive SpeakEv where
  | start : SpeakEv
  | boundary : List Char → SpeakEv
  | graceTimeout : SpeakEv
  | stop : SpeakEv
deriving DecidableEq, Repr

/-- The per-utterance closure state of `speak`: `usedBoundary`,
`speechStarted`, whether the grace `setTimeout` is scheduled and has not yet
fired, and the controller state. -/
structure SpeakState where
  usedBoundary : Bool
  speechStarted : Bool
  pendingGrace : Bool
  lip : LipState
deriving DecidableEq, Repr

/-- `phonemeData?.phonemes?.length > 0` — the truthiness test used in
`onboundary` (app.js line 997) and `onstart` (app.js lines 1019, 1029). -/
def hasTimeline (pd? : Option PhonemeData) : Bool :=
  match pd? with
  | some pd => !pd.phonemes.isEmpty
  | none => false

/-- One event step of `speak` (app.js lines 996–1039).  `onstart` with a
server timeline starts timeline mode at once and never schedules the grace
timer; without one it schedules the timer.  `onboundary` is ignored whenever a
server timeline exists; otherwise the first boundary starts realtime mode and
every boundary replaces the word queue.  The fired grace timer re-checks
`!usedBoundary && speechStarted`.  Nothing cancels the timer. -/
def speakStep (pd? : Option PhonemeData) (now : ℚ) (st : SpeakState) :
    SpeakEv → SpeakState
  | SpeakEv.start =>
    let st1 := { st with speechStarted := true }
    match pd? with
    | some pd =>
      if hasTimeline pd? then
        { st1 with lip := startLipSyncFromTimeline pd now st1.lip, usedBoundary := true }
      else { st1 with pendingGrace := true }
    | none => { st1 with pendingGrace := true }
  | SpeakEv.boundary w =>
    if hasTimeline pd? then st
    else
      let st1 :=
        if !st.usedBoundary then
          { st with usedBoundary := true, lip := startRealtimeLipSync st.lip }
        else st
      if w ≠ [] then
        { st1 with lip := { st1.lip with wordVisemeQueue := wordToVisemes w,
                                         wordVisemeStart := now } }
      else st1
  | SpeakEv.graceTimeout =>
    if st.pendingGrace then
      let st1 := { st with pendingGrace := false }
      if !st1.usedBoundary && st1.speechStarted then
        match pd? with
        | some pd =>
          if hasTimeline pd? then
            { st1 with lip := startLipSyncFromTimeline pd now st1.lip }
          else { st1 with lip := startLipSyncFallback now st1.lip }
        | none => { st1 with lip := startLipSyncFallback now st1.lip }
      else st1
    else st
  | SpeakEv.stop => { st with lip := stopLipSync st.lip }

/-- The idle controller state before an utterance. -/
def initLip : LipState :=
  { isSpeaking := false, lipSyncMode := "none", currentPhonemes := none,
    lipSyncStartTime := 0, wordVisemeQueue := [], wordVisemeStart := 0,
    talkGesturePhase := 0 }

/-- The closure state of `speak` before any callback has fired. -/
def initSpeak : SpeakState :=
  { usedBoundary := false, speechStarted := false, pendingGrace := false,
    lip := initLip }

/-- Run one utterance of `speak` over a sequence of callbacks. -/
def runSpeak (pd? : Option PhonemeData) (evs : List SpeakEv) : SpeakState :=
  evs.foldl (speakStep pd? 0) initSpeak

/-! ### Per-character formulas, as implemented and as the spec words them -/

/-- The per-character duration rule as implemented (server.js lines 150–155):
vowel 1.2 / consonant 0.9 on the base, and the extra 1.15 exactly when the
character is a vowel, a next character exists, and that next character is not
in `aeiou` (which includes apostrophes and hyphens kept by the word filter). -/
def codeCharDuration (c : Char) (next? : Option Char) : ℚ :=
  let d0 := if isVowel c then BASE_CHAR_DURATION * 1.2 else BASE_CHAR_DURATION * 0.9
  match next? with
  | some n => if isVowel c && !isVowel n then d0 * 1.15 else d0
  | none => d0

/-- A consonant in the ordinary sense: a lower-case letter that is not a
vowel. -/
def isConsonant (c : Char) : Bool :=
  ('a' ≤ c && c ≤ 'z') && !isVowel c

/-- The spec's wording of the duration rule: the extra 1.15 applies exactly
when the next character exists and is a consonant. -/
def specCharDuration (c : Char) (next? : Option Char) : ℚ :=
  let d0 := if isVowel c then BASE_CHAR_DURATION * 1.2 else BASE_CHAR_DURATION * 0.9
  match next? with
  | some n => if isVowel c && isConsonant n then d0 * 1.15 else d0
  | none => d0

/-- The per-character intensity rule as implemented (server.js lines
157–163). -/
def codeCharIntensity (c : Char) (emph : ℚ) : ℚ :=
  min 1 ((if isVowel c then (0.75 : ℚ) else 0.5) * emph)

/-- The digraph-first viseme lookup performed at a character `c` whose
remaining suffix is `rest` (server.js lines 143–144). -/
def lookupViseme (c : Char) (rest : List Char) : Option String :=
  match rest with
  | [] => charViseme c
  | n :: _ =>
    match digraphViseme c n with
    | some v => some v
    | none => charViseme c

/-! ### Invariants of the timeline generator -/

lemma BASE_CHAR_DURATION_pos : (0 : ℚ) < BASE_CHAR_DURATION := by
  norm_num [BASE_CHAR_DURATION]

lemma pauseOf_pos (punct : List Char) : (0 : ℚ) < pauseOf punct := by
  unfold pauseOf
  split <;> [skip; split] <;> [norm_num [PERIOD_PAUSE]; norm_num [EXCLAIM_PAUSE]; skip]
  split <;> [norm_num [QUESTION_PAUSE]; skip]
  split <;> [norm_num [COMMA_PAUSE]; norm_num [WORD_GAP]]

lemma WORD_GAP_pos : (0 : ℚ) < WORD_GAP := by norm_num [WORD_GAP]

/-- Clock growth, event time bounds and strictly increasing event times for
the inner character loop. -/
lemma wordLoop_spec (emph : ℚ) :
    ∀ (n : ℕ) (w : List Char), w.length ≤ n → ∀ (t : ℚ),
      t ≤ (wordLoop emph w t).2 ∧
      (∀ e ∈ (wordLoop emph w t).1,
        t ≤ e.time ∧ e.time + BASE_CHAR_DURATION ≤ (wordLoop emph w t).2) ∧
      (wordLoop emph w t).1.Pairwise (fun a b => a.time < b.time) := by
  intro n
  induction n with
  | zero =>
    intro w hw t
    have : w = [] := List.eq_nil_of_length_eq_zero (Nat.le_zero.mp hw)
    subst this
    simp [wordLoop]
  | succ n ih =>
    intro w hw t
    match w with
    | [] => simp [wordLoop]
    | [c] =>
      cases h : charViseme c with
      | none =>
        simp only [wordLoop, h]
        refine ⟨by linarith [BASE_CHAR_DURATION_pos], by simp, by simp⟩
      | some v =>
        simp only [wordLoop, h]
        refine ⟨by linarith [BASE_CHAR_DURATION_pos], ?_, by simp⟩
        intro e he
        simp only [List.mem_singleton] at he
        subst he
        exact ⟨le_refl _, le_refl _⟩
    | c :: c2 :: rest =>
      have hrest : rest.length ≤ n := by
        simp only [List.length_cons] at hw; omega
      have hrest2 : (c2 :: rest).length ≤ n := by
        simp only [List.length_cons] at hw ⊢; omega
      cases hdig : digraphViseme c c2 with
      | some v =>
        obtain ⟨h1, h2, h3⟩ := ih rest hrest (t + BASE_CHAR_DURATION)
        simp only [wordLoop, hdig]
        refine ⟨by linarith [BASE_CHAR_DURATION_pos], ?_, ?_⟩
        · intro e he
          simp only [List.mem_cons] at he
          rcases he with rfl | he
          · exact ⟨le_refl _, h1⟩
          · obtain ⟨he1, he2⟩ := h2 e he
            exact ⟨by linarith [BASE_CHAR_DURATION_pos], he2⟩
        · refine List.pairwise_cons.mpr ⟨?_, h3⟩
          intro e he
          obtain ⟨he1, _⟩ := h2 e he
          simpa using lt_of_lt_of_le (by linarith [BASE_CHAR_DURATION_pos]) he1
      | none =>
        cases hch : charViseme c with
        | none =>
          obtain ⟨h1, h2, h3⟩ := ih (c2 :: rest) hrest2 (t + BASE_CHAR_DURATION)
          simp only [wordLoop, hdig, hch]
          refine ⟨by linarith [BASE_CHAR_DURATION_pos], ?_, h3⟩
          intro e he
          obtain ⟨he1, he2⟩ := h2 e he
          exact ⟨by linarith [BASE_CHAR_DURATION_pos], he2⟩
        | some v =>
          obtain ⟨h1, h2, h3⟩ := ih (c2 :: rest) hrest2 (t + BASE_CHAR_DURATION)
          simp only [wordLoop, hdig, hch]
          refine ⟨by linarith [BASE_CHAR_DURATION_pos], ?_, ?_⟩
          · intro e he
            simp only [List.mem_cons] at he
            rcases he with rfl | he
            · exact ⟨le_refl _, h1⟩
            · obtain ⟨he1, he2⟩ := h2 e he
              exact ⟨by linarith [BASE_CHAR_DURATION_pos], he2⟩
          · refine List.pairwise_cons.mpr ⟨?_, h3⟩
            intro e he
            obtain ⟨he1, _⟩ := h2 e he
            simpa using lt_of_lt_of_le (by linarith [BASE_CHAR_DURATION_pos]) he1

/-- Combined shape of one word block of the generator: preceding character
events, then the silence event for the pause `p`, then the rest. -/
lemma silBlock_spec
    (t t1 p t2 : ℚ) (wevs revs : List VisemeEvent)
    (hw1 : t ≤ t1)
    (hw2 : ∀ e ∈ wevs, t ≤ e.time ∧ e.time + BASE_CHAR_DURATION ≤ t1)
    (hw3 : List.Pairwise (fun a b => a.time < b.time) wevs)
    (hp : 0 < p)
    (hr1 : t1 + p ≤ t2)
    (hr2 : revs = [] → t2 = t1 + p)
    (hr3 : ∀ e ∈ revs, t1 + p ≤ e.time ∧ e.time < t2)
    (hr4 : List.Pairwise (fun a b => a.time < b.time) revs)
    (hr5 : ∀ last, revs.getLast? = some last →
      last.viseme = "viseme_sil" ∧ last.intensity = 0 ∧ 0 < last.duration ∧
      last.time + last.duration = t2) :
    t ≤ t2 ∧
    ((wevs ++ (⟨"viseme_sil", t1, p, 0⟩ : VisemeEvent) :: revs) = [] → t2 = t) ∧
    (∀ e ∈ wevs ++ (⟨"viseme_sil", t1, p, 0⟩ : VisemeEvent) :: revs, t ≤ e.time ∧ e.time < t2) ∧
    List.Pairwise (fun a b => a.time < b.time)
      (wevs ++ (⟨"viseme_sil", t1, p, 0⟩ : VisemeEvent) :: revs) ∧
    (∀ last,
      (wevs ++ (⟨"viseme_sil", t1, p, 0⟩ : VisemeEvent) :: revs).getLast? = some last →
      last.viseme = "viseme_sil" ∧ last.intensity = 0 ∧ 0 < last.duration ∧
      last.time + last.duration = t2) := by
  have hBASE := BASE_CHAR_DURATION_pos
  refine ⟨by linarith, by simp, ?_, ?_, ?_⟩
  · intro e he
    simp only [List.mem_append, List.mem_cons] at he
    rcases he with he | rfl | he
    · obtain ⟨he1, he2⟩ := hw2 e he
      exact ⟨he1, by linarith⟩
    · exact ⟨hw1, by linarith⟩
    · obtain ⟨he1, he2⟩ := hr3 e he
      exact ⟨by linarith, he2⟩
  · refine List.pairwise_append.mpr ⟨hw3, ?_, ?_⟩
    · refine List.pairwise_cons.mpr ⟨?_, hr4⟩
      intro e he
      obtain ⟨he1, _⟩ := hr3 e he
      simpa using lt_of_lt_of_le (by linarith) he1
    · intro x hx y hy
      obtain ⟨_, hx2⟩ := hw2 x hx
      simp only [List.mem_cons] at hy
      rcases hy with rfl | hy
      · simpa using by linarith
      · obtain ⟨hy1, _⟩ := hr3 y hy
        exact lt_of_lt_of_le (by linarith) hy1
  · intro last hlast
    rw [List.getLast?_append_cons] at hlast
    cases hrevs : revs with
    | nil =>
      subst hrevs
      simp only [List.getLast?_singleton, Option.some.injEq] at hlast
      subst hlast
      exact ⟨rfl, rfl, hp, (hr2 rfl).symm⟩
    | cons x xs =>
      subst hrevs
      rw [List.getLast?_cons_cons] at hlast
      exact hr5 last hlast

/-- Clock growth, event-time bounds, strictly increasing times and the
trailing-silence shape for the word loop of the generator. -/
lemma genWords_spec :
    ∀ (ws : List (List Char)) (wi : ℕ) (t : ℚ),
      t ≤ (genWords ws wi t).2 ∧
      ((genWords ws wi t).1 = [] → (genWords ws wi t).2 = t) ∧
      (∀ e ∈ (genWords ws wi t).1, t ≤ e.time ∧ e.time < (genWords ws wi t).2) ∧
      List.Pairwise (fun a b => a.time < b.time) (genWords ws wi t).1 ∧
      (∀ last, (genWords ws wi t).1.getLast? = some last →
        last.viseme = "viseme_sil" ∧ last.intensity = 0 ∧ 0 < last.duration ∧
        last.time + last.duration = (genWords ws wi t).2) := by
  intro ws
  induction ws with
  | nil => intro wi t; simp [genWords]
  | cons rawWord rest ih =>
    intro wi t
    by_cases hword : rawWord.filter isWordChar = []
    · by_cases hpunct : trailingPunct rawWord = []
      · simpa only [genWords, hword, hpunct, if_pos] using ih (wi + 1) t
      · obtain ⟨g1, g2, g3, g4, g5⟩ := ih (wi + 1) (t + pauseOf (trailingPunct rawWord))
        have hblock := silBlock_spec t t (pauseOf (trailingPunct rawWord))
          (genWords rest (wi + 1) (t + pauseOf (trailingPunct rawWord))).2
          [] (genWords rest (wi + 1) (t + pauseOf (trailingPunct rawWord))).1
          (le_refl t) (by simp) (by simp) (pauseOf_pos _) g1 g2 g3 g4 g5
        simpa only [genWords, hword, hpunct, if_pos, if_neg, List.nil_append,
          not_false_iff] using hblock
    · have hw := wordLoop_spec (if wi = 0 then (1.1 : ℚ) else 1.0)
        (rawWord.filter isWordChar).length (rawWord.filter isWordChar)
        (le_refl _) t
      obtain ⟨w1, w2, w3⟩ := hw
      set emph := if wi = 0 then (1.1 : ℚ) else 1.0 with hemph
      set wres := wordLoop emph (rawWord.filter isWordChar) t with hwres
      set p := if trailingPunct rawWord = [] then WORD_GAP
               else pauseOf (trailingPunct rawWord) with hpdef
      have hp : 0 < p := by
        rw [hpdef]; split
        · exact WORD_GAP_pos
        · exact pauseOf_pos _
      obtain ⟨g1, g2, g3, g4, g5⟩ := ih (wi + 1) (wres.2 + p)
      have hblock := silBlock_spec t wres.2 p
        (genWords rest (wi + 1) (wres.2 + p)).2
        wres.1 (genWords rest (wi + 1) (wres.2 + p)).1
        w1 w2 w3 hp g1 g2 g3 g4 g5
      simpa only [genWords, hword, if_neg, not_false_iff] using hblock

/-- `generatePhonemeData` unfolded to the word loop it runs. -/
lemma generatePhonemeData_eq (txt : String) :
    generatePhonemeData txt =
      { phonemes :=
          (genWords (splitWs ((txt.data.map Char.toLower).filter isAllowedChar)) 0 0).1,
        totalDuration :=
          (genWords (splitWs ((txt.data.map Char.toLower).filter isAllowedChar)) 0 0).2 } :=
  rfl

/-- Every generated event starts at a nonnegative time strictly before the
total duration. -/
lemma generatePhonemeData_mem (txt : String) :
    ∀ e ∈ (generatePhonemeData txt).phonemes,
      0 ≤ e.time ∧ e.time < (generatePhonemeData txt).totalDuration := by
  rw [generatePhonemeData_eq]
  exact (genWords_spec _ 0 0).2.2.1

/-- Generated event start times are strictly increasing. -/
lemma generatePhonemeData_pairwise (txt : String) :
    List.Pairwise (fun a b => a.time < b.time) (generatePhonemeData txt).phonemes := by
  rw [generatePhonemeData_eq]
  exact (genWords_spec _ 0 0).2.2.2.1

/-- The last generated event is a positive-length silence ending exactly at
the total duration. -/
lemma generatePhonemeData_getLast (txt : String) :
    ∀ last, (generatePhonemeData txt).phonemes.getLast? = some last →
      last.viseme = "viseme_sil" ∧ last.intensity = 0 ∧ 0 < last.duration ∧
      last.time + last.duration = (generatePhonemeData txt).totalDuration := by
  rw [generatePhonemeData_eq]
  exact (genWords_spec _ 0 0).2.2.2.2

/-- A nonempty generated sequence has a strictly positive total duration
(hence a JavaScript-truthy `totalDuration`). -/
lemma generatePhonemeData_total_pos (txt : String)
    (h : (generatePhonemeData txt).phonemes ≠ []) :
    0 < (generatePhonemeData txt).totalDuration := by
  cases hlast : (generatePhonemeData txt).phonemes.getLast? with
  | none => exact absurd (List.getLast?_eq_none_iff.mp hlast) h
  | some last =>
    obtain ⟨_, _, hdur, hend⟩ := generatePhonemeData_getLast txt last hlast
    have hmem := generatePhonemeData_mem txt last (List.mem_of_mem_getLast? hlast)
    linarith [hmem.1]

/-- A vowel never begins a digraph of the `CHAR_TO_VISEME` table. -/
lemma digraphViseme_vowel (c c2 : Char) (h : isVowel c = true) :
    digraphViseme c c2 = none := by
  simp only [isVowel, Bool.or_eq_true, decide_eq_true_eq] at h
  rcases h with ((((rfl | rfl) | rfl) | rfl) | rfl) <;> rfl

/-- Every vowel has a single-character viseme. -/
lemma charViseme_vowel (c : Char) (h : isVowel c = true) :
    (charViseme c).isSome = true := by
  simp only [isVowel, Bool.or_eq_true, decide_eq_true_eq] at h
  rcases h with ((((rfl | rfl) | rfl) | rfl) | rfl) <;> rfl

/-- On an all-vowel word every emitted event carries the vowel duration
`base × 1.2`; the stressed-syllable multiplier never fires because the next
character is always a vowel too. -/
lemma wordLoop_all_vowel (emph : ℚ) :
    ∀ (n : ℕ) (w : List Char), w.length ≤ n → (∀ c ∈ w, isVowel c = true) →
      ∀ (t : ℚ) e, e ∈ (wordLoop emph w t).1 →
        e.duration = BASE_CHAR_DURATION * 1.2 := by
  intro n
  induction n with
  | zero =>
    intro w hw _ t e he
    have : w = [] := List.eq_nil_of_length_eq_zero (Nat.le_zero.mp hw)
    subst this
    simp [wordLoop] at he
  | succ n ih =>
    intro w hw hv t e he
    match w with
    | [] => simp [wordLoop] at he
    | [c] =>
      have hc : isVowel c = true := hv c (by simp)
      obtain ⟨v, hsome⟩ := Option.isSome_iff_exists.mp (charViseme_vowel c hc)
      simp only [wordLoop, hsome, hc, if_true, List.mem_singleton] at he
      subst he
      rfl
    | c :: c2 :: rest =>
      have hc : isVowel c = true := hv c (by simp)
      have hc2 : isVowel c2 = true := hv c2 (by simp)
      obtain ⟨v, hsome⟩ := Option.isSome_iff_exists.mp (charViseme_vowel c hc)
      have hrest2 : (c2 :: rest).length ≤ n := by
        simp only [List.length_cons] at hw ⊢; omega
      simp only [wordLoop, digraphViseme_vowel c c2 hc, hsome, hc, hc2,
        Bool.not_true, Bool.and_false, if_false, if_true, List.mem_cons] at he
      rcases he with rfl | he
      · rfl
      · exact ih (c2 :: rest) hrest2 (fun x hx => hv x (List.mem_cons_of_mem c hx)) _ e he

/-- The first event emitted at a character position follows the implemented
duration and intensity formulas, with the stress test reading the immediately
following character. -/
lemma wordLoop_head (emph t : ℚ) (c : Char) (rest : List Char) (v : String)
    (h : lookupViseme c rest = some v) :
    (wordLoop emph (c :: rest) t).1.head? =
      some ⟨v, t, codeCharDuration c rest.head?, codeCharIntensity c emph⟩ := by
  cases rest with
  | nil =>
    simp only [lookupViseme] at h
    simp [wordLoop, h, codeCharDuration, codeCharIntensity]
  | cons c2 rest2 =>
    simp only [lookupViseme] at h
    cases hdig : digraphViseme c c2 with
    | some v0 =>
      rw [hdig] at h
      cases h
      simp [wordLoop, hdig, codeCharDuration, codeCharIntensity]
    | none =>
      rw [hdig] at h
      have h2 : charViseme c = some v := h
      simp [wordLoop, hdig, h2, codeCharDuration, codeCharIntensity]

/-- Every event emitted by the character loop carries a duration and an
intensity of the implemented per-character form. -/
lemma wordLoop_events_shape (emph : ℚ) :
    ∀ (n : ℕ) (w : List Char), w.length ≤ n → ∀ (t : ℚ) e,
      e ∈ (wordLoop emph w t).1 →
      ∃ c next?, e.duration = codeCharDuration c next? ∧
        e.intensity = codeCharIntensity c emph := by
  intro n
  induction n with
  | zero =>
    intro w hw t e he
    have : w = [] := List.eq_nil_of_length_eq_zero (Nat.le_zero.mp hw)
    subst this
    simp [wordLoop] at he
  | succ n ih =>
    intro w hw t e he
    match w with
    | [] => simp [wordLoop] at he
    | [c] =>
      cases hch : charViseme c with
      | none => simp [wordLoop, hch] at he
      | some v =>
        simp only [wordLoop, hch, List.mem_singleton] at he
        subst he
        exact ⟨c, none, rfl, rfl⟩
    | c :: c2 :: rest =>
      have hrest : rest.length ≤ n := by
        simp only [List.length_cons] at hw; omega
      have hrest2 : (c2 :: rest).length ≤ n := by
        simp only [List.length_cons] at hw ⊢; omega
      cases hdig : digraphViseme c c2 with
      | some v =>
        simp only [wordLoop, hdig, List.mem_cons] at he
        rcases he with rfl | he
        · exact ⟨c, some c2, rfl, rfl⟩
        · exact ih rest hrest _ e he
      | none =>
        cases hch : charViseme c with
        | none =>
          simp only [wordLoop, hdig, hch] at he
          exact ih (c2 :: rest) hrest2 _ e he
        | some v =>
          simp only [wordLoop, hdig, hch, List.mem_cons] at he
          rcases he with rfl | he
          · exact ⟨c, some c2, rfl, rfl⟩
          · exact ih (c2 :: rest) hrest2 _ e he

/-! ### Monotonicity of the per-frame max-combine accumulator -/

/-- One `setMorph` never lowers any channel of the accumulator. -/
lemma setMorph_le (rig : Rig) (name : String) (v : ℚ) (m : MorphMap) (k : String) :
    m k ≤ setMorph rig name v m k := by
  unfold setMorph
  split
  · dsimp only
    split
    · rename_i hk
      subst hk
      exact le_max_left _ _
    · exact le_refl _
  · exact le_refl _

/-- Folding `setMorph` over a weight table never lowers any channel. -/
lemma foldl_setMorph_le (rig : Rig) (inten : ℚ) :
    ∀ (pairs : List (String × ℚ)) (m : MorphMap) (k : String),
      m k ≤ (pairs.foldl (fun acc p => setMorph rig p.1 (p.2 * inten) acc) m) k := by
  intro pairs
  induction pairs with
  | nil => intro m k; exact le_refl _
  | cons p ps ih =>
    intro m k
    exact le_trans (setMorph_le rig p.1 (p.2 * inten) m k) (ih _ k)

/-- `applyViseme` never lowers any channel of the accumulator. -/
lemma applyViseme_le (rig : Rig) (vis : String) (inten : ℚ) (m : MorphMap)
    (k : String) : m k ≤ applyViseme rig vis inten m k := by
  unfold applyViseme
  split
  · exact setMorph_le rig vis inten m k
  · split
    · cases hva : visemeToArkit vis with
      | some pairs => simp only [hva]; exact foldl_setMorph_le rig inten pairs m k
      | none => simp only [hva]; exact le_refl _
    · exact le_refl _

/-- The first emotion loop never lowers any channel of the accumulator. -/
lemma emoPhase1_le (rig : Rig) (rate : ℚ) :
    ∀ (target cur : List (String × ℚ)) (m : MorphMap) (k : String),
      m k ≤ (emoPhase1 rig rate target cur m).2 k := by
  intro target
  induction target with
  | nil => intro cur m k; exact le_refl _
  | cons p restT ih =>
    intro cur m k
    obtain ⟨name, tv⟩ := p
    simp only [emoPhase1]
    exact le_trans (setMorph_le rig name _ m k) (ih _ _ k)

/-- The decay loop of the emotion update never lowers any channel. -/
lemma emoPhase2_le (rig : Rig) (rate : ℚ) (target : List (String × ℚ)) :
    ∀ (cur : List (String × ℚ)) (m : MorphMap) (k : String),
      m k ≤ (emoPhase2 rig rate target cur m).2 k := by
  intro cur
  induction cur with
  | nil => intro m k; exact le_refl _
  | cons p rest ih =>
    intro m k
    obtain ⟨name, v⟩ := p
    simp only [emoPhase2]
    split
    · exact ih m k
    · split
      · exact ih m k
      · exact le_trans (setMorph_le rig name _ m k) (ih _ k)

/-- `updateEmotionMorphs` never lowers any channel of the accumulator. -/
lemma updateEmotionMorphs_le (expQ : ℚ → ℚ) (delta : ℚ)
    (cur target : List (String × ℚ)) (rig : Rig) (m : MorphMap) (k : String) :
    m k ≤ (updateEmotionMorphs expQ delta cur target rig m).2 k := by
  unfold updateEmotionMorphs
  exact le_trans (emoPhase1_le rig _ target cur m k) (emoPhase2_le rig _ target _ _ k)

/-! ### Concrete runs of the generator -/

/-- Generator output for the input `"a"`: the vowel event lasts 0.072 s but
advances the clock only 0.06 s. -/
lemma genEval_a :
    (generatePhonemeData "a").phonemes =
      [⟨"viseme_aa", 0, 0.072, 0.825⟩, ⟨"viseme_sil", 0.06, 0.07, 0⟩] ∧
    (generatePhonemeData "a").totalDuration = 0.13 := by
  rw [generatePhonemeData_eq]
  rw [show splitWs (("a".data.map Char.toLower).filter isAllowedChar) = [['a']] from rfl]
  simp +decide [genWords, wordLoop, trailingPunct, pauseOf, isWordChar, isPunctChar,
    charViseme, digraphViseme, isVowel, BASE_CHAR_DURATION, WORD_GAP, apostrophe,
    PERIOD_PAUSE, EXCLAIM_PAUSE, QUESTION_PAUSE, COMMA_PAUSE, VisemeEvent.mk.injEq]
  norm_num

/-- Generator output for the input `"Hello, world!"`. -/
lemma genEval_hello :
    (generatePhonemeData "Hello, world!").phonemes =
      [⟨"viseme_CH", 0, 0.054, 0.55⟩, ⟨"viseme_E", 0.06, 0.0828, 0.825⟩,
       ⟨"viseme_DD", 0.12, 0.054, 0.55⟩, ⟨"viseme_DD", 0.18, 0.054, 0.55⟩,
       ⟨"viseme_O", 0.24, 0.072, 0.825⟩, ⟨"viseme_sil", 0.3, 0.2, 0⟩,
       ⟨"viseme_U", 0.5, 0.054, 0.5⟩, ⟨"viseme_O", 0.56, 0.0828, 0.75⟩,
       ⟨"viseme_RR", 0.62, 0.054, 0.5⟩, ⟨"viseme_DD", 0.68, 0.054, 0.5⟩,
       ⟨"viseme_DD", 0.74, 0.054, 0.5⟩, ⟨"viseme_sil", 0.8, 0.3, 0⟩] ∧
    (generatePhonemeData "Hello, world!").totalDuration = 1.1 := by
  rw [generatePhonemeData_eq]
  rw [show splitWs (("Hello, world!".data.map Char.toLower).filter isAllowedChar) =
    [['h', 'e', 'l', 'l', 'o', ','], ['w', 'o', 'r', 'l', 'd', '!']] from rfl]
  simp +decide [genWords, wordLoop, trailingPunct, pauseOf, isWordChar, isPunctChar,
    charViseme, digraphViseme, isVowel, BASE_CHAR_DURATION, WORD_GAP, apostrophe,
    PERIOD_PAUSE, EXCLAIM_PAUSE, QUESTION_PAUSE, COMMA_PAUSE, VisemeEvent.mk.injEq]
  norm_num

/-- Generator output for the input `"eye"`: the `y` event uses the consonant
multiplier 0.9. -/
lemma genEval_eye :
    (generatePhonemeData "eye").phonemes =
      [⟨"viseme_E", 0, 0.0828, 0.825⟩, ⟨"viseme_CH", 0.06, 0.054, 0.55⟩,
       ⟨"viseme_E", 0.12, 0.072, 0.825⟩, ⟨"viseme_sil", 0.18, 0.07, 0⟩] := by
  rw [generatePhonemeData_eq]
  rw [show splitWs (("eye".data.map Char.toLower).filter isAllowedChar) =
    [['e', 'y', 'e']] from rfl]
  simp +decide [genWords, wordLoop, trailingPunct, pauseOf, isWordChar, isPunctChar,
    charViseme, digraphViseme, isVowel, BASE_CHAR_DURATION, WORD_GAP, apostrophe,
    PERIOD_PAUSE, EXCLAIM_PAUSE, QUESTION_PAUSE, COMMA_PAUSE, VisemeEvent.mk.injEq]
  norm_num

/-- Generator output for the input `"a-a"`: the hyphen is not a consonant, yet
the first vowel still receives the 1.15 stress multiplier. -/
lemma genEval_dash :
    (generatePhonemeData "a-a").phonemes =
      [⟨"viseme_aa", 0, 0.0828, 0.825⟩, ⟨"viseme_aa", 0.12, 0.072, 0.825⟩,
       ⟨"viseme_sil", 0.18, 0.07, 0⟩] := by
  rw [generatePhonemeData_eq]
  rw [show splitWs (("a-a".data.map Char.toLower).filter isAllowedChar) =
    [['a', '-', 'a']] from rfl]
  simp +decide [genWords, wordLoop, trailingPunct, pauseOf, isWordChar, isPunctChar,
    charViseme, digraphViseme, isVowel, BASE_CHAR_DURATION, WORD_GAP, apostrophe,
    PERIOD_PAUSE, EXCLAIM_PAUSE, QUESTION_PAUSE, COMMA_PAUSE, VisemeEvent.mk.injEq]
  norm_num

/-- Generator output for the all-vowel input `"oui"`: every character event
lasts exactly `base × 1.2`. -/
lemma genEval_oui :
    (generatePhonemeData "oui").phonemes =
      [⟨"viseme_O", 0, 0.072, 0.825⟩, ⟨"viseme_U", 0.06, 0.072, 0.825⟩,
       ⟨"viseme_I", 0.12, 0.072, 0.825⟩, ⟨"viseme_sil", 0.18, 0.07, 0⟩] := by
  rw [generatePhonemeData_eq]
  rw [show splitWs (("oui".data.map Char.toLower).filter isAllowedChar) =
    [['o', 'u', 'i']] from rfl]
  simp +decide [genWords, wordLoop, trailingPunct, pauseOf, isWordChar, isPunctChar,
    charViseme, digraphViseme, isVowel, BASE_CHAR_DURATION, WORD_GAP, apostrophe,
    PERIOD_PAUSE, EXCLAIM_PAUSE, QUESTION_PAUSE, COMMA_PAUSE, VisemeEvent.mk.injEq]
  norm_num

/-- Generator output for `"Hi."`: the trailing period yields a 0.35 s
silence. -/
lemma genEval_hi_period :
    (generatePhonemeData "Hi.").phonemes =
      [⟨"viseme_CH", 0, 0.054, 0.55⟩, ⟨"viseme_I", 0.06, 0.072, 0.825⟩,
       ⟨"viseme_sil", 0.12, 0.35, 0⟩] := by
  rw [generatePhonemeData_eq]
  rw [show splitWs (("Hi.".data.map Char.toLower).filter isAllowedChar) =
    [['h', 'i', '.']] from rfl]
  simp +decide [genWords, wordLoop, trailingPunct, pauseOf, isWordChar, isPunctChar,
    charViseme, digraphViseme, isVowel, BASE_CHAR_DURATION, WORD_GAP, apostrophe,
    PERIOD_PAUSE, EXCLAIM_PAUSE, QUESTION_PAUSE, COMMA_PAUSE, VisemeEvent.mk.injEq]
  norm_num

/-- Generator output for `"Hi?"`: the trailing question mark yields a 0.3 s
silence. -/
lemma genEval_hi_question :
    (generatePhonemeData "Hi?").phonemes =
      [⟨"viseme_CH", 0, 0.054, 0.55⟩, ⟨"viseme_I", 0.06, 0.072, 0.825⟩,
       ⟨"viseme_sil", 0.12, 0.3, 0⟩] := by
  rw [generatePhonemeData_eq]
  rw [show splitWs (("Hi?".data.map Char.toLower).filter isAllowedChar) =
    [['h', 'i', '?']] from rfl]
  simp +decide [genWords, wordLoop, trailingPunct, pauseOf, isWordChar, isPunctChar,
    charViseme, digraphViseme, isVowel, BASE_CHAR_DURATION, WORD_GAP, apostrophe,
    PERIOD_PAUSE, EXCLAIM_PAUSE, QUESTION_PAUSE, COMMA_PAUSE, VisemeEvent.mk.injEq]
  norm_num

/-- Generator output for `"Hi"`: no punctuation, so the word-gap silence of
0.07 s. -/
lemma genEval_hi :
    (generatePhonemeData "Hi").phonemes =
      [⟨"viseme_CH", 0, 0.054, 0.55⟩, ⟨"viseme_I", 0.06, 0.072, 0.825⟩,
       ⟨"viseme_sil", 0.12, 0.07, 0⟩] := by
  rw [generatePhonemeData_eq]
  rw [show splitWs (("Hi".data.map Char.toLower).filter isAllowedChar) =
    [['h', 'i']] from rfl]
  simp +decide [genWords, wordLoop, trailingPunct, pauseOf, isWordChar, isPunctChar,
    charViseme, digraphViseme, isVowel, BASE_CHAR_DURATION, WORD_GAP, apostrophe,
    PERIOD_PAUSE, EXCLAIM_PAUSE, QUESTION_PAUSE, COMMA_PAUSE, VisemeEvent.mk.injEq]
  norm_num

/-! ### The claims -/

/-- C1 (counterexample): on the input `"a"` the generated sequence has
`totalDuration = 0.13` while the sum of its events' durations is `0.142`, and
the second event starts at `0.06 ≠ 0 + 0.072`, so the claimed duration-sum
identity and the claimed contiguity (`event[i+1].time = event[i].time +
event[i].duration`) are both false: the generator advances the clock by the
fixed base 0.06 s per character regardless of the event's own duration. -/
theorem c1_counterexample :
    (generatePhonemeData "a").phonemes.map VisemeEvent.time = [0, 0.06] ∧
    (generatePhonemeData "a").phonemes.map VisemeEvent.duration = [0.072, 0.07] ∧
    (generatePhonemeData "a").totalDuration = 0.13 ∧
    ((generatePhonemeData "a").phonemes.map VisemeEvent.duration).sum = 0.142 ∧
    ¬ (generatePhonemeData "a").totalDuration =
        ((generatePhonemeData "a").phonemes.map VisemeEvent.duration).sum ∧
    ¬ (0.06 : ℚ) = 0 + 0.072 := by
  obtain ⟨hl, ht⟩ := genEval_a
  rw [hl, ht]
  norm_num

/-- C1 (amended): for every input text the events' start times are strictly
increasing and every event starts at a nonnegative time strictly before
`totalDuration`; the events are not contiguous in general and `totalDuration`
is the final running clock, not the sum of the events' durations. -/
theorem c1_amended_times (txt : String) :
    List.Pairwise (fun a b => a.time < b.time) (generatePhonemeData txt).phonemes ∧
    ∀ e ∈ (generatePhonemeData txt).phonemes,
      0 ≤ e.time ∧ e.time < (generatePhonemeData txt).totalDuration :=
  ⟨generatePhonemeData_pairwise txt, generatePhonemeData_mem txt⟩

/-- C1 (witness): the amended statement evaluated on the input `"a"` at its
silence event. -/
theorem c1_amended_times_witness :
    List.Pairwise (fun a b => a.time < b.time) (generatePhonemeData "a").phonemes ∧
    (0 : ℚ) ≤ 0.06 ∧ (0.06 : ℚ) < (generatePhonemeData "a").totalDuration := by
  have h := c1_amended_times "a"
  have hmem : (⟨"viseme_sil", 0.06, 0.07, 0⟩ : VisemeEvent) ∈
      (generatePhonemeData "a").phonemes := by
    rw [genEval_a.1]; simp
  have h2 := h.2 _ hmem
  exact ⟨h.1, h2.1, h2.2⟩

/-- C4 (counterexample): on the input `"a-a"` the first event lasts
`0.0828 = base × 1.2 × 1.15` because the code applies the stress multiplier
whenever the next character is merely a non-vowel (here the hyphen), while the
claim's formula — stress only before a consonant — predicts `0.072`. -/
theorem c4_counterexample :
    (generatePhonemeData "a-a").phonemes.map VisemeEvent.duration =
      [0.0828, 0.072, 0.07] ∧
    codeCharDuration 'a' (some '-') = 0.0828 ∧
    specCharDuration 'a' (some '-') = 0.072 ∧
    ¬ (0.0828 : ℚ) = 0.072 := by
  rw [genEval_dash]
  simp +decide [codeCharDuration, specCharDuration, isVowel, isConsonant,
    BASE_CHAR_DURATION]
  norm_num

/-- C4 (amended): each mapped character's event carries duration
`base × (1.2 if vowel else 0.9)`, additionally `× 1.15` exactly when the
character is a vowel, a next character exists and that next character is not
a vowel (consonant, apostrophe or hyphen alike), and intensity
`min 1 ((0.75 if vowel else 0.5) × wordEmphasis)`; the first conjunct pins the
head event of every character position, the second gives the form of every
emitted event. -/
theorem c4_amended_duration_formula :
    (∀ (emph t : ℚ) (c : Char) (rest : List Char) (v : String),
      lookupViseme c rest = some v →
      (wordLoop emph (c :: rest) t).1.head? =
        some ⟨v, t, codeCharDuration c rest.head?, codeCharIntensity c emph⟩) ∧
    (∀ (emph t : ℚ) (w : List Char) e, e ∈ (wordLoop emph w t).1 →
      ∃ c next?, e.duration = codeCharDuration c next? ∧
        e.intensity = codeCharIntensity c emph) :=
  ⟨fun emph t c rest v h => wordLoop_head emph t c rest v h,
   fun emph t w e he => wordLoop_events_shape emph w.length w (le_refl _) t e he⟩

/-- C4 (witness): the amended statement evaluated at the word `"ab"` with
emphasis 1.1 and clock 0. -/
theorem c4_amended_duration_formula_witness :
    (wordLoop 1.1 ['a', 'b'] 0).1.head? =
      some ⟨"viseme_aa", 0, codeCharDuration 'a' (some 'b'),
        codeCharIntensity 'a' 1.1⟩ ∧
    ∃ c next?,
      (⟨"viseme_aa", 0, codeCharDuration 'a' (some 'b'),
        codeCharIntensity 'a' 1.1⟩ : VisemeEvent).duration =
          codeCharDuration c next? ∧
      (⟨"viseme_aa", 0, codeCharDuration 'a' (some 'b'),
        codeCharIntensity 'a' 1.1⟩ : VisemeEvent).intensity =
          codeCharIntensity c 1.1 := by
  have h1 := c4_amended_duration_formula.1 1.1 0 'a' ['b'] "viseme_aa" (by rfl)
  refine ⟨h1, ?_⟩
  have hmem : (⟨"viseme_aa", 0, codeCharDuration 'a' (some 'b'),
      codeCharIntensity 'a' 1.1⟩ : VisemeEvent) ∈ (wordLoop 1.1 ['a', 'b'] 0).1 :=
    List.mem_of_mem_head? h1
  exact c4_amended_duration_formula.2 1.1 0 ['a', 'b'] _ hmem

/-- C5: after every word the generator emits exactly one silence event whose
duration is the trailing-punctuation classification (the first conjunct gives
the block shape of every nonempty word); concretely, in `"Hello, world!"` the
comma silence lasts 0.2 s and the exclamation silence 0.3 s, a period gives
0.35 s, a question mark 0.3 s and no punctuation the 0.07 s word gap; and a
character that falls outside the permitted alphabet after case folding can be
inserted anywhere without changing the output at all. -/
theorem c5_punctuation_silences :
    (∀ (rawWord : List Char) (rest : List (List Char)) (wi : ℕ) (t : ℚ),
      rawWord.filter isWordChar ≠ [] →
      (genWords (rawWord :: rest) wi t).1 =
        (wordLoop (if wi = 0 then 1.1 else 1.0) (rawWord.filter isWordChar) t).1 ++
          (⟨"viseme_sil",
            (wordLoop (if wi = 0 then 1.1 else 1.0) (rawWord.filter isWordChar) t).2,
            if trailingPunct rawWord = [] then WORD_GAP
              else pauseOf (trailingPunct rawWord), 0⟩ : VisemeEvent) ::
          (genWords rest (wi + 1)
            ((wordLoop (if wi = 0 then 1.1 else 1.0) (rawWord.filter isWordChar) t).2 +
              (if trailingPunct rawWord = [] then WORD_GAP
                else pauseOf (trailingPunct rawWord)))).1) ∧
    (generatePhonemeData "Hello, world!").phonemes =
      [⟨"viseme_CH", 0, 0.054, 0.55⟩, ⟨"viseme_E", 0.06, 0.0828, 0.825⟩,
       ⟨"viseme_DD", 0.12, 0.054, 0.55⟩, ⟨"viseme_DD", 0.18, 0.054, 0.55⟩,
       ⟨"viseme_O", 0.24, 0.072, 0.825⟩, ⟨"viseme_sil", 0.3, 0.2, 0⟩,
       ⟨"viseme_U", 0.5, 0.054, 0.5⟩, ⟨"viseme_O", 0.56, 0.0828, 0.75⟩,
       ⟨"viseme_RR", 0.62, 0.054, 0.5⟩, ⟨"viseme_DD", 0.68, 0.054, 0.5⟩,
       ⟨"viseme_DD", 0.74, 0.054, 0.5⟩, ⟨"viseme_sil", 0.8, 0.3, 0⟩] ∧
    (generatePhonemeData "Hi.").phonemes.getLast?.map VisemeEvent.duration =
      some 0.35 ∧
    (generatePhonemeData "Hi?").phonemes.getLast?.map VisemeEvent.duration =
      some 0.3 ∧
    (generatePhonemeData "Hi").phonemes.getLast?.map VisemeEvent.duration =
      some 0.07 ∧
    ∀ (l r : List Char) (c : Char), isAllowedChar c.toLower = false →
      generatePhonemeData ⟨l ++ c :: r⟩ = generatePhonemeData ⟨l ++ r⟩ := by
  refine ⟨?_, genEval_hello.1, ?_, ?_, ?_, ?_⟩
  · intro rawWord rest wi t h
    simp only [genWords, if_neg h]
  · rw [genEval_hi_period]; rfl
  · rw [genEval_hi_question]; rfl
  · rw [genEval_hi]; rfl
  · intro l r c h
    rw [generatePhonemeData_eq, generatePhonemeData_eq]
    have hd1 : (⟨l ++ c :: r⟩ : String).data = l ++ c :: r := rfl
    have hd2 : (⟨l ++ r⟩ : String).data = l ++ r := rfl
    rw [hd1, hd2, List.map_append, List.map_append, List.map_cons,
      List.filter_append, List.filter_append, List.filter_cons, h]
    simp

/-- C5 (witness): the word-block statement evaluated on the single word
`"hi"`, and the alphabet statement on inserting the disallowed character `@`
between `"a"` and `"b"`. -/
theorem c5_punctuation_silences_witness :
    (genWords [['h', 'i']] 0 0).1 =
      (wordLoop (if 0 = 0 then 1.1 else 1.0) (['h', 'i'].filter isWordChar) 0).1 ++
        (⟨"viseme_sil",
          (wordLoop (if 0 = 0 then 1.1 else 1.0) (['h', 'i'].filter isWordChar) 0).2,
          if trailingPunct ['h', 'i'] = [] then WORD_GAP
            else pauseOf (trailingPunct ['h', 'i']), 0⟩ : VisemeEvent) ::
        (genWords [] (0 + 1)
          ((wordLoop (if 0 = 0 then 1.1 else 1.0) (['h', 'i'].filter isWordChar) 0).2 +
            (if trailingPunct ['h', 'i'] = [] then WORD_GAP
              else pauseOf (trailingPunct ['h', 'i'])))).1 ∧
    generatePhonemeData ⟨['a'] ++ '@' :: ['b']⟩ = generatePhonemeData ⟨['a'] ++ ['b']⟩ := by
  exact ⟨c5_punctuation_silences.1 ['h', 'i'] [] 0 0 (by decide),
    c5_punctuation_silences.2.2.2.2.2 ['a'] ['b'] '@' (by decide)⟩

/-- C6 (counterexample): `"eye"` is not an all-vowel word for the code: `y` is
treated as a consonant, so its event lasts `0.054 = base × 0.9`, not
`base × 1.2` — the claim's instance fails. -/
theorem c6_counterexample :
    (generatePhonemeData "eye").phonemes.map VisemeEvent.duration =
      [0.0828, 0.054, 0.072, 0.07] ∧
    (0.054 : ℚ) = BASE_CHAR_DURATION * 0.9 ∧
    ¬ (0.054 : ℚ) = BASE_CHAR_DURATION * 1.2 := by
  rw [genEval_eye]
  norm_num [BASE_CHAR_DURATION]

/-- C6 (amended): for a word all of whose characters are in `aeiou`, every
emitted event uses the vowel duration `base × 1.2` (the stress multiplier
never fires because the next character is always a vowel), as on the all-vowel
input `"oui"`; `"eye"` is excluded because the code treats `y` as a
consonant. -/
theorem c6_all_vowel_durations :
    (∀ (w : List Char), (∀ c ∈ w, isVowel c = true) → ∀ (emph t : ℚ) e,
      e ∈ (wordLoop emph w t).1 → e.duration = BASE_CHAR_DURATION * 1.2) ∧
    (generatePhonemeData "oui").phonemes.map VisemeEvent.duration =
      [0.072, 0.072, 0.072, 0.07] := by
  constructor
  · intro w hv emph t e he
    exact wordLoop_all_vowel emph w.length w (le_refl _) hv t e he
  · rw [genEval_oui]
    norm_num

/-- C6 (witness): the amended statement evaluated on the word `"ai"` at its
first event. -/
theorem c6_all_vowel_durations_witness :
    (⟨"viseme_aa", 0, 0.072, 0.75⟩ : VisemeEvent).duration =
      BASE_CHAR_DURATION * 1.2 := by
  refine c6_all_vowel_durations.1 ['a', 'i'] (by decide) 1 0 _ ?_
  have : (wordLoop 1 ['a', 'i'] 0).1 =
      [⟨"viseme_aa", 0, 0.072, 0.75⟩, ⟨"viseme_I", 0 + BASE_CHAR_DURATION, 0.072, 0.75⟩] := by
    simp +decide [wordLoop, charViseme, digraphViseme, isVowel, BASE_CHAR_DURATION,
      VisemeEvent.mk.injEq]
    norm_num
  rw [this]
  simp

/-- C10: for every input whose generated event list is nonempty, the last
event is a `viseme_sil` with intensity 0 whose end (`time + duration`) is
exactly `totalDuration`. -/
theorem c10_ends_in_silence (txt : String)
    (h : (generatePhonemeData txt).phonemes ≠ []) :
    ∃ last, (generatePhonemeData txt).phonemes.getLast? = some last ∧
      last.viseme = "viseme_sil" ∧ last.intensity = 0 ∧
      last.time + last.duration = (generatePhonemeData txt).totalDuration := by
  cases hlast : (generatePhonemeData txt).phonemes.getLast? with
  | none => exact absurd (List.getLast?_eq_none_iff.mp hlast) h
  | some last =>
    obtain ⟨h1, h2, _, h4⟩ := generatePhonemeData_getLast txt last hlast
    exact ⟨last, rfl, h1, h2, h4⟩

/-- C10 (witness): the statement evaluated on the input `"a"`. -/
theorem c10_ends_in_silence_witness :
    ∃ last, (generatePhonemeData "a").phonemes.getLast? = some last ∧
      last.viseme = "viseme_sil" ∧ last.intensity = 0 ∧
      last.time + last.duration = (generatePhonemeData "a").totalDuration := by
  refine c10_ends_in_silence "a" ?_
  rw [genEval_a.1]
  simp

/-- C3: within a frame, contributions to the same channel merge by
per-channel max, never addition — `setMorph` never lowers a channel, on a
known channel it computes exactly `max` of old and new, `applyViseme` and
`updateEmotionMorphs` inherit the monotonicity, and concretely 0.3 then 0.6
(in either order) yields exactly 0.6, never 0.9. -/
theorem c3_max_combine :
    (∀ (rig : Rig) (name : String) (v : ℚ) (m : MorphMap) (k : String),
      m k ≤ setMorph rig name v m k) ∧
    (∀ (rig : Rig) (name : String) (v : ℚ) (m : MorphMap),
      rig.dict.contains name = true → setMorph rig name v m name = max (m name) v) ∧
    (∀ (rig : Rig) (vis : String) (inten : ℚ) (m : MorphMap) (k : String),
      m k ≤ applyViseme rig vis inten m k) ∧
    (∀ (expQ : ℚ → ℚ) (delta : ℚ) (cur target : List (String × ℚ)) (rig : Rig)
      (m : MorphMap) (k : String),
      m k ≤ (updateEmotionMorphs expQ delta cur target rig m).2 k) ∧
    (setMorph ⟨["ch"], false, false⟩ "ch" 0.6
        (setMorph ⟨["ch"], false, false⟩ "ch" 0.3 resetMorphTargets) "ch" = 0.6 ∧
      setMorph ⟨["ch"], false, false⟩ "ch" 0.3
        (setMorph ⟨["ch"], false, false⟩ "ch" 0.6 resetMorphTargets) "ch" = 0.6 ∧
      ¬ (0.6 : ℚ) = 0.9) := by
  refine ⟨setMorph_le, ?_, applyViseme_le, updateEmotionMorphs_le, ?_⟩
  · intro rig name v m h
    unfold setMorph
    rw [if_pos h]
    simp
  · refine ⟨?_, ?_, by norm_num⟩ <;>
      · simp [setMorph, resetMorphTargets, max_def]
        norm_num

/-- C3 (witness): the max-combine identity evaluated on a concrete rig,
channel and accumulator. -/
theorem c3_max_combine_witness :
    setMorph ⟨["x"], false, false⟩ "x" 0.5 resetMorphTargets "x" =
      max (resetMorphTargets "x") 0.5 :=
  c3_max_combine.2.1 ⟨["x"], false, false⟩ "x" 0.5 resetMorphTargets (by decide)

/-- C7: in timeline mode on a generated nonempty sequence, as soon as elapsed
playback time exceeds `totalDuration + 0.15` the tick stops the controller
(idle state, accumulator untouched), so the mouth never holds a stale final
shape. -/
theorem c7_timeline_auto_stop (txt : String) (s : LipState) (sinPi : ℚ → ℚ)
    (rig : Rig) (now : ℚ) (m : MorphMap)
    (hspeak : s.isSpeaking = true)
    (hmode : s.lipSyncMode = "timeline")
    (hpd : s.currentPhonemes = some (generatePhonemeData txt))
    (hne : (generatePhonemeData txt).phonemes ≠ [])
    (hel : (generatePhonemeData txt).totalDuration + 0.15 <
      (now - s.lipSyncStartTime) / 1000) :
    tickLipSync sinPi now rig s m = (stopLipSync s, m) := by
  have htot := generatePhonemeData_total_pos txt hne
  have hcond : (generatePhonemeData txt).totalDuration ≠ 0 ∧
      (now - s.lipSyncStartTime) / 1000 >
        (generatePhonemeData txt).totalDuration + 0.15 :=
    ⟨htot.ne', hel⟩
  simp only [tickLipSync, hspeak, hmode, hpd, Bool.not_true, if_true, if_pos hcond]
  simp

/-- C7 (witness): a timeline state over the generated data for `"a"`
(total 0.13 s) ticked at 1000 ms elapsed stops. -/
theorem c7_timeline_auto_stop_witness :
    tickLipSync (fun _ => 0) 1000 ⟨[], false, false⟩
      ⟨true, "timeline", some (generatePhonemeData "a"), 0, [], 0, 0⟩
      resetMorphTargets =
    (stopLipSync ⟨true, "timeline", some (generatePhonemeData "a"), 0, [], 0, 0⟩,
      resetMorphTargets) := by
  refine c7_timeline_auto_stop "a" _ _ _ _ _ rfl rfl rfl ?_ ?_
  · rw [genEval_a.1]; simp
  · rw [genEval_a.2]; norm_num

/-- `phonemes.length > 0` is truthy exactly when the list is nonempty. -/
lemma hasTimeline_true {pd : PhonemeData} (h : pd.phonemes ≠ []) :
    hasTimeline (some pd) = true := by
  cases hp : pd.phonemes with
  | nil => exact absurd hp h
  | cons a l => simp [hasTimeline, hp]

/-- With a nonempty server timeline, no single `speak` event can put the
controller into realtime mode. -/
lemma speakStep_not_realtime (pd : PhonemeData) (h : pd.phonemes ≠ [])
    (now : ℚ) (st : SpeakState) (e : SpeakEv)
    (hst : ¬ st.lip.lipSyncMode = "realtime") :
    ¬ (speakStep (some pd) now st e).lip.lipSyncMode = "realtime" := by
  have ht := hasTimeline_true h
  cases e with
  | start => simp [speakStep, ht, startLipSyncFromTimeline, stopLipSync]
  | boundary w => simpa [speakStep, ht] using hst
  | graceTimeout =>
    simp only [speakStep, ht]
    split
    · split
      · simp [startLipSyncFromTimeline, stopLipSync]
      · exact hst
    · exact hst
  | stop => simp [speakStep, stopLipSync]

/-- With a nonempty server timeline, no `speak` event sequence leaves the
controller in realtime mode. -/
lemma runSpeak_not_realtime (pd : PhonemeData) (h : pd.phonemes ≠ []) :
    ∀ (evs : List SpeakEv),
      ¬ (runSpeak (some pd) evs).lip.lipSyncMode = "realtime" := by
  have key : ∀ (evs : List SpeakEv) (st : SpeakState),
      ¬ st.lip.lipSyncMode = "realtime" →
      ¬ (evs.foldl (speakStep (some pd) 0) st).lip.lipSyncMode = "realtime" := by
    intro evs
    induction evs with
    | nil => intro st hst; exact hst
    | cons e rest ih =>
      intro st hst
      exact ih _ (speakStep_not_realtime pd h 0 st e hst)
  intro evs
  exact key evs initSpeak (by simp [initSpeak, initLip])

/-- C2: when playback starts with a nonempty precomputed sequence and no
word-boundary signal arrives before the grace timeout (400 ms, inside the
claimed 400–500 ms window), the controller ends in timeline mode driving that
sequence, and no event sequence whatsoever can leave it stuck in realtime
mode. -/
theorem c2_mode_arbitration (pd : PhonemeData) (h : pd.phonemes ≠ []) :
    (400 : ℚ) ≤ graceDelayMs ∧ graceDelayMs ≤ 500 ∧
    (runSpeak (some pd) [SpeakEv.start, SpeakEv.graceTimeout]).lip.lipSyncMode =
      "timeline" ∧
    (runSpeak (some pd) [SpeakEv.start, SpeakEv.graceTimeout]).lip.isSpeaking =
      true ∧
    (runSpeak (some pd) [SpeakEv.start, SpeakEv.graceTimeout]).lip.currentPhonemes =
      some pd ∧
    ∀ (evs : List SpeakEv),
      ¬ (runSpeak (some pd) evs).lip.lipSyncMode = "realtime" := by
  have ht := hasTimeline_true h
  refine ⟨by norm_num [graceDelayMs], by norm_num [graceDelayMs], ?_, ?_, ?_,
    runSpeak_not_realtime pd h⟩ <;>
    simp [runSpeak, speakStep, ht, startLipSyncFromTimeline, stopLipSync,
      initSpeak, initLip]

/-- C2 (witness): the arbitration statement evaluated on the generated data
for `"Hi"` and, for the last conjunct, on an event sequence that even contains
a boundary signal. -/
theorem c2_mode_arbitration_witness :
    (runSpeak (some (generatePhonemeData "Hi"))
      [SpeakEv.start, SpeakEv.graceTimeout]).lip.lipSyncMode = "timeline" ∧
    ¬ (runSpeak (some (generatePhonemeData "Hi"))
      [SpeakEv.start, SpeakEv.boundary ['h', 'i'],
        SpeakEv.graceTimeout]).lip.lipSyncMode = "realtime" := by
  have h := c2_mode_arbitration (generatePhonemeData "Hi")
    (by rw [genEval_hi]; simp)
  exact ⟨h.2.2.1, h.2.2.2.2.2 _⟩

/-- C9 (counterexample): `stopLipSync` does not cancel the pending grace
timer — after `onstart` with no timeline and then a stop, the timer is still
pending, and when it fires it restarts lip sync in fallback mode, leaving the
controller speaking and non-idle after an explicit stop. -/
theorem c9_counterexample :
    (speakStep none 0 (runSpeak none [SpeakEv.start]) SpeakEv.stop).pendingGrace =
      true ∧
    (runSpeak none [SpeakEv.start, SpeakEv.stop,
      SpeakEv.graceTimeout]).lip.isSpeaking = true ∧
    (runSpeak none [SpeakEv.start, SpeakEv.stop,
      SpeakEv.graceTimeout]).lip.lipSyncMode = "fallback" := by
  refine ⟨rfl, rfl, rfl⟩

/-- C9 (amended): `stopLipSync` is total (never throws), idempotent, leaves
the idle state with an empty queue, a subsequent tick contributes nothing to
the accumulator — but it does not cancel a pending grace timer: the stop event
leaves `pendingGrace` (and the `usedBoundary`, `speechStarted` flags the fired
timer re-checks) untouched. -/
theorem c9_stop_idempotent :
    (∀ s : LipState, stopLipSync (stopLipSync s) = stopLipSync s) ∧
    (∀ s : LipState, (stopLipSync s).isSpeaking = false ∧
      (stopLipSync s).lipSyncMode = "none" ∧
      (stopLipSync s).wordVisemeQueue = []) ∧
    (∀ (sinPi : ℚ → ℚ) (now : ℚ) (rig : Rig) (s : LipState) (m : MorphMap),
      tickLipSync sinPi now rig (stopLipSync s) m = (stopLipSync s, m)) ∧
    (∀ (pd? : Option PhonemeData) (now : ℚ) (st : SpeakState),
      (speakStep pd? now st SpeakEv.stop).pendingGrace = st.pendingGrace ∧
      (speakStep pd? now st SpeakEv.stop).usedBoundary = st.usedBoundary ∧
      (speakStep pd? now st SpeakEv.stop).speechStarted = st.speechStarted) := by
  refine ⟨fun s => rfl, fun s => ⟨rfl, rfl, rfl⟩, fun sinPi now rig s m => rfl,
    fun pd? now st => ⟨rfl, rfl, rfl⟩⟩

/-- C8 (counterexample): the claim that face-tracking-derived contributions
never reach the accumulator while speaking is false — two frames identical
except for the tracked blink value produce different accumulators while
speaking, because `updateBlink` merges the face-tracked blink every frame
regardless of `isSpeaking`. -/
theorem c8_counterexample :
    ¬ (∀ (sinPi sinQ expQ : ℚ → ℚ) (r1 r2 r3 rB : ℚ) (rig : Rig) (delta : ℚ)
        (fs : FrameState) (ft : Option ℚ),
        fs.lip.isSpeaking = true →
        (animateFrame sinPi sinQ expQ r1 r2 r3 rB rig delta fs).2 =
          (animateFrame sinPi sinQ expQ r1 r2 r3 rB rig delta
            { fs with blink := { fs.blink with faceTrackBlink := ft } }).2) := by
  intro hclaim
  have h := hclaim (fun _ => 0) (fun _ => 0) (fun _ => 0) 0 0 0 0
    ⟨["eyeBlinkLeft", "eyeBlinkRight"], false, false⟩ 0
    ⟨⟨true, "realtime", none, 0, [], 0, 0⟩, [], [],
      ⟨0, 0, 0, 0, 1, 0, 0, none, none⟩, ⟨0, 3, 0, 0, some 1, false⟩, 0, 0⟩
    (some 0) rfl
  have h2 := congrFun h "eyeBlinkLeft"
  simp only [animateFrame, tickLipSync, updateEmotionMorphs, emoPhase1, emoPhase2,
    microExpressions, updateEyeGaze, updateBlink, setMorph, resetMorphTargets] at h2
  simp +decide [max_def, resetMorphTargets] at h2
  norm_num at h2

/-- C8 (amended): while speaking, idle micro-expressions contribute nothing
(the frame pipeline equals the pipeline with the micro-expression step
removed), and the face-tracking mouth-open, smile and brow contributions of
`onFaceResults` are all suppressed; only the face-tracked blink (and gaze)
keep driving the accumulator during speech. -/
theorem c8_suppression :
    (∀ (sinPi sinQ expQ : ℚ → ℚ) (r1 r2 r3 rB : ℚ) (rig : Rig) (delta : ℚ)
      (fs : FrameState),
      (tickLipSync sinPi fs.nowMs rig fs.lip resetMorphTargets).1.isSpeaking = true →
      animateFrame sinPi sinQ expQ r1 r2 r3 rB rig delta fs =
        animateFrameNoMicro sinPi sinQ expQ r1 r2 r3 rB rig delta fs) ∧
    (∀ (lm : ℕ → ℚ × ℚ) (rig : Rig) (m : MorphMap),
      (onFaceResults (some lm) true rig m).2 = m) ∧
    (∀ (rig : Rig) (m : MorphMap), (onFaceResults none true rig m).2 = m) := by
  refine ⟨?_, ?_, fun rig m => rfl⟩
  · intro sinPi sinQ expQ r1 r2 r3 rB rig delta fs h
    simp only [animateFrame, animateFrameNoMicro, h, if_true]
  · intro lm rig m
    simp [onFaceResults, Bool.not_true, Bool.and_false]

/-- C8 (witness): the suppression statement evaluated on a concrete speaking
frame and concrete landmarks. -/
theorem c8_suppression_witness :
    animateFrame (fun _ => 0) (fun _ => 0) (fun _ => 0) 0 0 0 0
      ⟨["eyeBlinkLeft"], false, false⟩ 0
      ⟨⟨true, "realtime", none, 0, [], 0, 0⟩, [], [],
        ⟨0, 0, 0, 0, 1, 0, 0, none, none⟩, ⟨0, 3, 0, 0, some 1, false⟩, 0, 0⟩ =
    animateFrameNoMicro (fun _ => 0) (fun _ => 0) (fun _ => 0) 0 0 0 0
      ⟨["eyeBlinkLeft"], false, false⟩ 0
      ⟨⟨true, "realtime", none, 0, [], 0, 0⟩, [], [],
        ⟨0, 0, 0, 0, 1, 0, 0, none, none⟩, ⟨0, 3, 0, 0, some 1, false⟩, 0, 0⟩ ∧
    (onFaceResults (some (fun _ => (0, 0))) true ⟨["eyeBlinkLeft"], false, false⟩
      resetMorphTargets).2 = resetMorphTargets := by
  refine ⟨c8_suppression.1 _ _ _ _ _ _ _ _ _ _ rfl,
    c8_suppression.2.1 (fun _ => (0, 0)) _ _⟩

end VRHuman
